import Mathlib

/-!
# Listing filters of the scheduler application

A shallow embedding of the client-side filters of `static/script.js`
(`filterServices`, `performFilter`, `clearFilters`) and
`static/provider_filter.js` (`filterProviders`), of three helpers of
`static/script.js` (`formatTime`, the star row of `viewProviders`,
`addLoadingState`), and of the JavaScript built-ins they call (`toLowerCase`,
`includes`, `replace`, `split`, `parseInt`, the relational and remainder
operators on Numbers, `setTimeout` / `clearTimeout`).

Conventions of the embedding.

* A JavaScript string is a Lean `String`; the functions work on its list of
  characters.
* A value that may be `undefined` / `null` (a `data-*` attribute that is not
  set, an element that `getElementById` does not find) is an `Option`.
* Reading a property of `undefined` / `null` raises a `TypeError`; functions
  that can do so return `Except JsError _`.
* Timers are explicit state: `setTimeout` appends to a queue of pending
  timers, `clearTimeout` removes from it, and firing a timer runs its action.
* What the browser supplies and the repository does not contain is a
  parameter: the lower-casing of `String.prototype.toLowerCase` (`lower` in
  `performFilterWith` and `filterProvidersWith`; `toLowerCase` is the instance
  for ASCII text) and the parsing and serialising behind `innerHTML`
  (`reparse` in `addLoadingState`).
-/

namespace SchedulerApp

/-! ## JavaScript Numbers -/

/-- The Numbers the filters meet: `NaN`, the integral values (the results of
`parseInt` and the literals `50`, `100`, `200`) and the two infinities.
`-0` is identified with `0`, which the relational operators do not tell apart. -/
inductive JsNumber where
  | nan
  | int (v : Int)
  | posInf
  | negInf
  deriving DecidableEq, Repr

namespace JsNumber

/-- The operator `a < b`: false as soon as one operand is `NaN`. -/
def lt : JsNumber → JsNumber → Bool
  | nan, _ => false
  | _, nan => false
  | int a, int b => decide (a < b)
  | int _, posInf => true
  | int _, negInf => false
  | posInf, _ => false
  | negInf, negInf => false
  | negInf, _ => true

/-- The operator `a >= b`: false when one operand is `NaN`, otherwise the
negation of `a < b`. -/
def ge : JsNumber → JsNumber → Bool
  | nan, _ => false
  | _, nan => false
  | a, b => !(lt a b)

end JsNumber

/-- Number of binary digits of `n`, computed with `fuel` halvings at most. -/
def bitLengthAux : Nat → Nat → Nat
  | 0, _ => 0
  | fuel + 1, n => if n = 0 then 0 else bitLengthAux fuel (n / 2) + 1

/-- Number of binary digits of `n` (`0` for `0`). -/
def bitLength (n : Nat) : Nat := bitLengthAux n n

/-- The bound `2^1024`, above every finite double (written as a product so
that it evaluates without a large exponent). -/
def doubleLimit : Nat := 2 ^ 256 * 2 ^ 256 * 2 ^ 256 * 2 ^ 256

/-- The Number value of a non-negative mathematical integer: the nearest
IEEE 754 double (53-bit significand, ties to even); `none` stands for
`+Infinity`, reached from `2^1024 - 2^970` on. -/
def roundToDouble (n : Nat) : Option Nat :=
  if n < 2 ^ 53 then some n
  else
    let shift := bitLength n - 53
    let q := n / 2 ^ shift
    let r := n % 2 ^ shift
    let half := 2 ^ (shift - 1)
    let q' := if half < r ∨ (r = half ∧ q % 2 = 1) then q + 1 else q
    let v := q' * 2 ^ shift
    if v < doubleLimit then some v else none

/-! ## JavaScript strings -/

/-- The lower-casing of ASCII text: the letters `A`-`Z` are mapped, every
other character is kept. `String.prototype.toLowerCase` agrees with it on
text whose characters are all ASCII; beyond, it follows the Unicode case
table, which is no part of the repository. The filters therefore take the
lower-casing as a parameter (`performFilterWith`, `filterProvidersWith`), and
`performFilter` and `filterProviders` are their instances at this function. -/
def toLowerCase (s : String) : String := ⟨s.data.map Char.toLower⟩

/-- Does `t` occur in `s` as a contiguous run of characters? -/
def includesChars (t : List Char) : List Char → Bool
  | [] => t.isEmpty
  | c :: s => t.isPrefixOf (c :: s) || includesChars t s

/-- `s.includes(t)` of `String.prototype.includes`. -/
def includes (s t : String) : Bool := includesChars t.data s.data

/-- `s.replace(c, r)` for a one-character string pattern `c`: only the first
occurrence is replaced (the replacement texts used contain no `$` pattern). -/
def replaceFirst (c : Char) (r : List Char) : List Char → List Char
  | [] => []
  | d :: s => if d = c then r ++ s else d :: replaceFirst c r s

/-- `s.split(' ')`: the pieces between the spaces, empty pieces included;
the empty string gives one empty piece. -/
def splitSpace : List Char → List (List Char)
  | [] => [[]]
  | c :: s =>
    if c = ' ' then [] :: splitSpace s
    else
      match splitSpace s with
      | [] => [[c]]
      | w :: ws => (c :: w) :: ws

/-- The characters `parseInt` skips at the start of its input
(`StrWhiteSpaceChar`: white space and line terminators). -/
def isStrWhiteSpaceChar (c : Char) : Bool :=
  let n := c.toNat
  n = 0x9 || n = 0xA || n = 0xB || n = 0xC || n = 0xD || n = 0x20 || n = 0xA0 ||
  n = 0x1680 || (0x2000 ≤ n && n ≤ 0x200A) || n = 0x2028 || n = 0x2029 ||
  n = 0x202F || n = 0x205F || n = 0x3000 || n = 0xFEFF

/-- Value of a character as a digit in radix `R`, if it is one. -/
def radixDigit (R : Nat) (c : Char) : Option Nat :=
  let n := c.toNat
  let v :=
    if 48 ≤ n ∧ n ≤ 57 then some (n - 48)
    else if 97 ≤ n ∧ n ≤ 122 then some (n - 97 + 10)
    else if 65 ≤ n ∧ n ≤ 90 then some (n - 65 + 10)
    else none
  v.filter (fun d => d < R)

/-- The mathematical integer written by a run of radix-`R` digits. -/
def digitsValue (R : Nat) (z : List Char) : Nat :=
  z.foldl (fun acc c => acc * R + (radixDigit R c).getD 0) 0

/-- `parseInt(input)` with no radix argument, on the characters of the input:
leading white space is skipped, a sign is read, a `0x` / `0X` prefix selects
radix 16, the longest run of digits is read (none: `NaN`) and its value is
converted to a Number. (For more than 20 significant decimal digits the
standard lets an implementation zero the digits after the 20th; the exact
value is taken here. Both choices compare alike with `50`, `100`, `200`.) -/
def parseIntChars (input : List Char) : JsNumber :=
  let s := input.dropWhile isStrWhiteSpaceChar
  let neg := s.head? = some '-'
  let s := if s.head? = some '-' ∨ s.head? = some '+' then s.tail else s
  let hex := s.take 2 = ['0', 'x'] ∨ s.take 2 = ['0', 'X']
  let R := if hex then 16 else 10
  let s := if hex then s.drop 2 else s
  let z := s.takeWhile (fun c => (radixDigit R c).isSome)
  if z.isEmpty then JsNumber.nan
  else
    match roundToDouble (digitsValue R z) with
    | some v => JsNumber.int (if neg then -(v : Int) else v)
    | none => if neg then JsNumber.negInf else JsNumber.posInf

/-- `parseInt(x)` for an array element `x` that may be `undefined`: the
argument is first converted to a string, `undefined` giving `"undefined"`. -/
def parseInt (x : Option (List Char)) : JsNumber :=
  parseIntChars (x.getD "undefined".data)

/-! ## The page -/

/-- The error raised by reading a property of `undefined` or `null`. -/
inductive JsError where
  | typeError
  deriving DecidableEq, Repr

deriving instance DecidableEq for Except

/-- Reading a property of a value that may be `undefined` / `null`. -/
def deref {α : Type} : Option α → Except JsError α
  | some a => Except.ok a
  | none => Except.error JsError.typeError

/-- The value of `style.animation`. The texts are kept as they are; the
template literal of the card fade-in, whose delay is the product
`index * 0.05` rendered as text, is kept as the index it was built from. -/
inductive Animation where
  | text (css : String)
  | fadeInUpCard (index : Nat)
  deriving DecidableEq, Repr

/-- The two inline style properties the filters write. -/
structure Style where
  display : String
  animation : Animation
  deriving DecidableEq, Repr

/-- An element is hidden when its inline `display` is `none`. -/
def Style.shown (s : Style) : Bool := s.display != "none"

/-- An element of class `service-card`: its `data-name`, `data-category` and
`data-price` attributes (`none` when the attribute is not set), the tag text
it may carry besides (no line of `script.js` reads it) and its style. -/
structure ServiceCard where
  name : Option String
  category : Option String
  price : Option String
  tags : Option String
  style : Style
  deriving DecidableEq, Repr

/-- What a pending timer runs: `performFilter` (scheduled by `filterServices`),
the hiding of the card at a position of the `.service-card` list, or the
hiding of the no-results element (both scheduled by `performFilter`). -/
inductive TimerAction where
  | performFilter
  | hideCard (index : Nat)
  | hideNoResults
  deriving DecidableEq, Repr

/-- A pending timer: the id `setTimeout` returned, the delay, the action. -/
structure Timer where
  id : Nat
  delay : Nat
  action : TimerAction
  deriving DecidableEq, Repr

/-- The pending timers, in the order they were scheduled, and the next id
`setTimeout` hands out. -/
structure TimerQueue where
  pending : List Timer
  nextId : Nat
  deriving DecidableEq, Repr

/-- `setTimeout(action, delay)`: the new queue and the id returned. -/
def TimerQueue.setTimeout (q : TimerQueue) (action : TimerAction) (delay : Nat) :
    TimerQueue × Nat :=
  ({ pending := q.pending ++ [{ id := q.nextId, delay := delay, action := action }],
     nextId := q.nextId + 1 }, q.nextId)

/-- `clearTimeout(id)`: the timer of that id is no longer pending;
`clearTimeout(undefined)` does nothing. -/
def TimerQueue.clearTimeout (q : TimerQueue) : Option Nat → TimerQueue
  | none => q
  | some id => { q with pending := q.pending.filter (fun t => t.id != id) }

/-- The services page as `script.js` sees it: the values of the three inputs
and the no-results element (`none` when `getElementById` finds no such
element), the `.service-card` elements in document order, the pending timers
and the module variable `searchTimeout`. -/
structure ServicePage where
  serviceSearch : Option String
  categoryFilter : Option String
  priceFilter : Option String
  cards : List ServiceCard
  noResults : Option Style
  timers : TimerQueue
  searchTimeout : Option Nat
  deriving DecidableEq, Repr

/-! ## `script.js`: the service filter -/

/-- `filterServices`: cancel the pending recomputation, schedule a new one. -/
def filterServices (p : ServicePage) : ServicePage :=
  let q := p.timers.clearTimeout p.searchTimeout
  let (q, id) := q.setTimeout TimerAction.performFilter 300
  { p with timers := q, searchTimeout := some id }

/-- The array `price` of `performFilter`:
`priceRange.replace('$', '').replace('-', ' ').split(' ')`. -/
def priceParts (priceRange : String) : List (List Char) :=
  splitSpace (replaceFirst '-' [' '] (replaceFirst '$' [] priceRange.data))

/-- The `switch (selectedPrice)` of `performFilter`: does it set `showCard`
to false? Values other than the four brackets match no case. -/
def priceSwitchHides (selectedPrice : String) (minPrice maxPrice : JsNumber) : Bool :=
  if selectedPrice = "0-50" then minPrice.ge (JsNumber.int 50)
  else if selectedPrice = "50-100" then
    minPrice.ge (JsNumber.int 100) || maxPrice.lt (JsNumber.int 50)
  else if selectedPrice = "100-200" then
    minPrice.ge (JsNumber.int 200) || maxPrice.lt (JsNumber.int 100)
  else if selectedPrice = "200+" then maxPrice.lt (JsNumber.int 200)
  else false

/-- The body of the `forEach` callback of `performFilter` up to the final
`if (showCard)`: the value of `showCard` for one card, or the `TypeError` of
calling `includes` / `replace` on an attribute that is not set. -/
def showCard (searchTerm selectedCategory selectedPrice : String) (card : ServiceCard) :
    Except JsError Bool := do
  let serviceName := card.name
  let category := card.category
  let priceRange := card.price
  let showCard := true
  -- Search filter
  let showCard ←
    if searchTerm ≠ "" then do
      let serviceName ← deref serviceName
      pure (if !includes serviceName searchTerm then false else showCard)
    else pure showCard
  -- Category filter
  let showCard :=
    if selectedCategory ≠ "" ∧ category ≠ some selectedCategory then false else showCard
  -- Price filter
  let showCard ←
    if selectedPrice ≠ "" then do
      let priceRange ← deref priceRange
      let price := priceParts priceRange
      let minPrice := parseInt price[0]?
      let maxPrice := parseInt price[1]?
      pure (if priceSwitchHides selectedPrice minPrice maxPrice then false else showCard)
    else pure showCard
  pure showCard

/-- The `serviceCards.forEach` of `performFilter` from position `index` on:
the cards after the loop, the timer queue and `visibleCount`. A shown card
gets `display = ''` and the fade-in animation; a hidden card gets the fade-out
animation and a timer that sets `display = 'none'` after 300. -/
def forEachCard (searchTerm selectedCategory selectedPrice : String) :
    Nat → List ServiceCard → TimerQueue → Nat →
    Except JsError (List ServiceCard × TimerQueue × Nat)
  | _, [], q, visibleCount => pure ([], q, visibleCount)
  | index, card :: rest, q, visibleCount => do
    let shown ← showCard searchTerm selectedCategory selectedPrice card
    if shown then
      let card := { card with
        style := { display := "", animation := Animation.fadeInUpCard index } }
      let (cards, q, visibleCount) ←
        forEachCard searchTerm selectedCategory selectedPrice (index + 1) rest q
          (visibleCount + 1)
      pure (card :: cards, q, visibleCount)
    else
      let card := { card with
        style := { card.style with animation := Animation.text "fadeOut 0.3s ease both" } }
      let q := (q.setTimeout (TimerAction.hideCard index) 300).1
      let (cards, q, visibleCount) ←
        forEachCard searchTerm selectedCategory selectedPrice (index + 1) rest q visibleCount
      pure (card :: cards, q, visibleCount)

/-- `performFilter`, with `String.prototype.toLowerCase` as the parameter
`lower`. The inputs are read first (a missing input element raises), then the
cards are walked, then the no-results element is written (a missing element
raises there, after the walk). -/
def performFilterWith (lower : String → String) (p : ServicePage) :
    Except JsError ServicePage := do
  let searchTerm := lower (← deref p.serviceSearch)
  let selectedCategory ← deref p.categoryFilter
  let selectedPrice ← deref p.priceFilter
  let (cards, q, visibleCount) ←
    forEachCard searchTerm selectedCategory selectedPrice 0 p.cards p.timers 0
  let noResults ← deref p.noResults
  if visibleCount = 0 then
    pure { p with
      cards := cards,
      noResults := some { display := "block",
                          animation := Animation.text "fadeInUp 0.5s ease both" },
      timers := q }
  else
    pure { p with
      cards := cards,
      noResults := some { noResults with animation := Animation.text "fadeOut 0.3s ease both" },
      timers := (q.setTimeout TimerAction.hideNoResults 300).1 }

/-- `performFilter` on ASCII text: the instance of `performFilterWith` at the
lower-casing of ASCII text. -/
def performFilter (p : ServicePage) : Except JsError ServicePage :=
  performFilterWith toLowerCase p

/-- The effect of a hide timer of `performFilter` on the page (the callback
sets `display = 'none'` on the element it captured); `performFilter` timers
are left to `fireTimer`. -/
def runHide (p : ServicePage) : TimerAction → ServicePage
  | TimerAction.hideCard index =>
    let hide := fun (card : ServiceCard) =>
      { card with style := { card.style with display := "none" } }
    { p with cards := p.cards.modify hide index }
  | TimerAction.hideNoResults =>
    { p with noResults := p.noResults.map (fun s => { s with display := "none" }) }
  | TimerAction.performFilter => p

/-- Firing one pending timer: it leaves the queue and its action runs. -/
def fireTimer (t : Timer) (p : ServicePage) : Except JsError ServicePage :=
  let p := { p with timers := { p.timers with pending := p.timers.pending.erase t } }
  match t.action with
  | TimerAction.performFilter => performFilter p
  | a => pure (runHide p a)

/-- Is the timer one of the hide timers of `performFilter`? -/
def Timer.isHide (t : Timer) : Bool := t.action != TimerAction.performFilter

/-- The page once every pending hide timer has fired, in scheduling order;
pending `performFilter` timers stay pending. -/
def fireHideTimers (p : ServicePage) : ServicePage :=
  let hides := p.timers.pending.filter Timer.isHide
  let p := hides.foldl (fun p t => runHide p t.action) p
  { p with timers := { p.timers with pending := p.timers.pending.filter (fun t => !t.isHide) } }

/-! ## `provider_filter.js`: the provider filter -/

/-- An element of class `provider-card`: its `data-name` and `data-services`
attributes and its style. -/
structure ProviderCard where
  name : Option String
  services : Option String
  style : Style
  deriving DecidableEq, Repr

/-- The providers page: the value of the `searchProvider` input and the style
of the `noResults` element (`none` when absent) and the provider cards. -/
structure ProviderPage where
  searchProvider : Option String
  cards : List ProviderCard
  noResults : Option Style
  deriving DecidableEq, Repr

/-- The condition of the `if` in the `forEach` callback of `filterProviders`. -/
def providerMatches (searchQuery : String) (card : ProviderCard) : Bool :=
  let name := card.name.getD ""
  let services := card.services.getD ""
  searchQuery = "" || includes name searchQuery || includes services searchQuery

/-- The `providerCards.forEach` of `filterProviders`: the cards after the loop
and `visibleCount`. -/
def forEachProvider (searchQuery : String) :
    List ProviderCard → Nat → List ProviderCard × Nat
  | [], visibleCount => ([], visibleCount)
  | card :: rest, visibleCount =>
    if providerMatches searchQuery card then
      let card := { card with style := { card.style with display := "" } }
      let (cards, visibleCount) := forEachProvider searchQuery rest (visibleCount + 1)
      (card :: cards, visibleCount)
    else
      let card := { card with style := { card.style with display := "none" } }
      let (cards, visibleCount) := forEachProvider searchQuery rest visibleCount
      (card :: cards, visibleCount)

/-- `filterProviders`, with `String.prototype.toLowerCase` as the parameter
`lower`. The search box is read before the guard clause; the node list of
`querySelectorAll` is never falsy, so the guard returns exactly when the
`noResults` element is missing. -/
def filterProvidersWith (lower : String → String) (p : ProviderPage) :
    Except JsError ProviderPage := do
  let searchQuery := lower (← deref p.searchProvider)
  match p.noResults with
  | none => pure p
  | some noResults =>
    let (cards, visibleCount) := forEachProvider searchQuery p.cards 0
    if visibleCount = 0 ∧ searchQuery ≠ "" then
      pure { p with cards := cards, noResults := some { noResults with display := "block" } }
    else
      pure { p with cards := cards, noResults := some { noResults with display := "none" } }

/-- `filterProviders` on ASCII text: the instance of `filterProvidersWith` at
the lower-casing of ASCII text. -/
def filterProviders (p : ProviderPage) : Except JsError ProviderPage :=
  filterProvidersWith toLowerCase p

/-! ## `script.js`: `clearFilters` -/

/-- The `forEach` of `clearFilters` from position `index` on: every card gets
`display = ''` and the fade-in animation of its position. -/
def forEachShow : Nat → List ServiceCard → List ServiceCard
  | _, [] => []
  | index, card :: rest =>
    { card with style := { display := "", animation := Animation.fadeInUpCard index } }
      :: forEachShow (index + 1) rest

/-- `clearFilters`. The three inputs are set to `''` (a missing input raises),
every card is shown, and the no-results element gets `display = 'none'` (a
missing element raises); its animation is not written. -/
def clearFilters (p : ServicePage) : Except JsError ServicePage := do
  let _ ← deref p.serviceSearch
  let _ ← deref p.categoryFilter
  let _ ← deref p.priceFilter
  let cards := forEachShow 0 p.cards
  let noResults ← deref p.noResults
  pure { p with
    serviceSearch := some "", categoryFilter := some "", priceFilter := some "",
    cards := cards,
    noResults := some { noResults with display := "none" } }

/-! ## `script.js`: `formatTime` -/

/-- `s.split(sep)` for a one-character separator: the pieces between the
separators, empty pieces included. -/
def splitChar (sep : Char) : List Char → List (List Char)
  | [] => [[]]
  | c :: s =>
    if c = sep then [] :: splitChar sep s
    else
      match splitChar sep s with
      | [] => [[c]]
      | w :: ws => (c :: w) :: ws

namespace JsNumber

/-- The operator `a % b`: the remainder has the sign of the dividend; `NaN`
when the dividend is not finite or the divisor is `0` or `NaN`; the dividend
itself when the divisor is infinite. -/
def mod : JsNumber → JsNumber → JsNumber
  | int a, int b => if b = 0 then nan else int (Int.tmod a b)
  | int a, posInf => int a
  | int a, negInf => int a
  | _, _ => nan

/-- The truth value of a Number: `0` and `NaN` are falsy. -/
def truthy : JsNumber → Bool
  | nan => false
  | int v => v != 0
  | _ => true

/-- The text of a Number in a template literal, for the integral values below
`10^21` in magnitude (beyond, JavaScript writes an exponent). -/
def toText : JsNumber → String
  | nan => "NaN"
  | int v => toString v
  | posInf => "Infinity"
  | negInf => "-Infinity"

end JsNumber

/-- The text of a string that may be `undefined`, in a template literal. -/
def textOrUndefined : Option (List Char) → String
  | some s => String.mk s
  | none => "undefined"

/-- `formatTime`. The destructuring takes the first two pieces of the split;
a piece that does not exist is `undefined`. -/
def formatTime (timeString : String) : String :=
  let parts := splitChar ':' timeString.data
  let hours := parts[0]?
  let minutes := parts[1]?
  let hour := parseInt hours
  let ampm := if hour.ge (JsNumber.int 12) then "PM" else "AM"
  let displayHour :=
    if (hour.mod (JsNumber.int 12)).truthy then hour.mod (JsNumber.int 12)
    else JsNumber.int 12
  displayHour.toText ++ ":" ++ textOrUndefined minutes ++ " " ++ ampm

/-! ## `script.js`: the star row of `viewProviders` -/

/-- A provider as `viewProviders` receives it, as far as the star row reads
it: a string, or an object whose `rating` is a number (a double, which is an
exact rational) or is not set. -/
inductive Provider where
  | text (name : String)
  | object (rating : Option ℚ)
  deriving DecidableEq

/-- The three icons of the star row: `fas fa-star`, `fas fa-star-half-alt`
and `far fa-star`. -/
inductive StarIcon where
  | full
  | half
  | empty
  deriving DecidableEq, Repr

/-- The variable `rating`: `isObject ? (provider.rating || 4.5) : 4.5`. A
rating of `0` is falsy, like a rating that is not set. -/
def rating : Provider → ℚ
  | Provider.object (some r) => if r = 0 then 9 / 2 else r
  | _ => 9 / 2

/-- The operator `x % 1`: what is left of `x` once its integer part, rounded
towards zero, is taken off. -/
def remOne (x : ℚ) : ℚ := x - (if 0 ≤ x then (⌊x⌋ : ℚ) else (⌈x⌉ : ℚ))

/-- The variable `fullStars`: `Math.floor(rating)`. -/
def fullStars (rating : ℚ) : Int := ⌊rating⌋

/-- The variable `halfStar`: `rating % 1 >= 0.5 ? 1 : 0`. -/
def halfStar (rating : ℚ) : Int := if remOne rating ≥ 1 / 2 then 1 else 0

/-- The variable `emptyStars`: `5 - fullStars - halfStar`. -/
def emptyStars (rating : ℚ) : Int := 5 - fullStars rating - halfStar rating

/-- The icons of `starsHTML` in order: a loop of `fullStars` full stars, the
half star when `halfStar` is truthy, a loop of `emptyStars` empty stars (a
loop whose bound is negative runs no round). -/
def starsHTML (rating : ℚ) : List StarIcon :=
  List.replicate (fullStars rating).toNat StarIcon.full ++
    (if halfStar rating ≠ 0 then [StarIcon.half] else []) ++
    List.replicate (emptyStars rating).toNat StarIcon.empty

/-- The star row `viewProviders` renders for a provider. -/
def starRow (provider : Provider) : List StarIcon := starsHTML (rating provider)

/-! ## `script.js`: `addLoadingState` -/

/-- A button, as far as `addLoadingState` reads and writes it. `innerHTML` is
the text the getter returns: the serialisation of the children of the button.
`className` and `disabled` reflect attributes, which hold the value assigned. -/
structure Button where
  innerHTML : String
  className : String
  disabled : Bool
  deriving DecidableEq, Repr

/-- `addLoadingState(button)`: the button after the call, and the function
`removeLoadingState` it returns, which acts on the button as it then is and
holds the two original values in its closure.

An assignment to `innerHTML` parses the text into the children of the button,
and a later read serialises these children: after `button.innerHTML = text`
the property reads `reparse text`. The parser and the serialiser belong to the
browser, not to the repository, so `reparse` is a parameter. -/
def addLoadingState (reparse : String → String) (button : Button) :
    Button × (Button → Button) :=
  let originalText := button.innerHTML
  let originalClasses := button.className
  ({ button with
      innerHTML := reparse "<i class=\"fas fa-spinner fa-spin me-1\"></i>Loading...",
      className := originalClasses ++ " loading",
      disabled := true },
   fun button => { button with
      innerHTML := reparse originalText, className := originalClasses, disabled := false })

/-! ## Auxiliary definitions

The words of the specification (`containsIgnoreCase`, `bracketHolds`,
`priceText`), the pure description of a run of `performFilter` used in the
proofs, and the example pages. -/

/-- The ten decimal digit characters. -/
def IsDecimal (c : Char) : Prop := ∃ k, k < 10 ∧ c = Nat.digitChar k

instance (c : Char) : Decidable (IsDecimal c) :=
  inferInstanceAs (Decidable (∃ k, k < 10 ∧ c = Nat.digitChar k))

/-- The Number that `parseInt` makes of a non-negative integer value. -/
def toNumber (n : Nat) : JsNumber :=
  match roundToDouble n with
  | some v => JsNumber.int v
  | none => JsNumber.posInf

/-- The price text `$<min>-<max>` with both bounds in decimal digits. -/
def priceText (min max : Nat) : String := "$" ++ toString min ++ "-" ++ toString max

/-- The values of `showCard` for the cards in document order, or the
`TypeError` of the first card that raises. -/
def decisions (searchTerm selectedCategory selectedPrice : String) :
    List ServiceCard → Except JsError (List Bool)
  | [] => Except.ok []
  | card :: rest =>
    match showCard searchTerm selectedCategory selectedPrice card with
    | Except.error e => Except.error e
    | Except.ok b =>
      match decisions searchTerm selectedCategory selectedPrice rest with
      | Except.error e => Except.error e
      | Except.ok bs => Except.ok (b :: bs)

/-- A card as the walk leaves it when `showCard` is true. -/
def shownCard (index : Nat) (card : ServiceCard) : ServiceCard :=
  { card with style := { display := "", animation := Animation.fadeInUpCard index } }

/-- A card as the walk leaves it when `showCard` is false: fading out, its
`display` not yet written. -/
def fadingCard (card : ServiceCard) : ServiceCard :=
  { card with style := { card.style with animation := Animation.text "fadeOut 0.3s ease both" } }

/-- A card that faded out, once its hide timer has fired. -/
def hiddenCard (card : ServiceCard) : ServiceCard :=
  { card with style := { display := "none", animation := Animation.text "fadeOut 0.3s ease both" } }

/-- The cards as the walk leaves them, given the decisions. -/
def loopCards : List Bool → Nat → List ServiceCard → List ServiceCard
  | b :: bs, index, card :: rest =>
    (if b then shownCard index card else fadingCard card) :: loopCards bs (index + 1) rest
  | _, _, _ => []

/-- The hide timers the walk schedules, given the decisions. -/
def loopTimers : List Bool → Nat → Nat → List Timer
  | [], _, _ => []
  | true :: bs, index, id => loopTimers bs (index + 1) id
  | false :: bs, index, id =>
    { id := id, delay := 300, action := TimerAction.hideCard index }
      :: loopTimers bs (index + 1) (id + 1)

/-- The cards once the hide timers of the walk have fired. -/
def settledCards : List Bool → Nat → List ServiceCard → List ServiceCard
  | b :: bs, index, card :: rest =>
    (if b then shownCard index card else hiddenCard card) :: settledCards bs (index + 1) rest
  | _, _, _ => []

/-- No hide timer of an earlier run is still pending. -/
def ServicePage.NoPendingHide (p : ServicePage) : Prop :=
  ∀ t ∈ p.timers.pending, t.isHide = false

instance (p : ServicePage) : Decidable p.NoPendingHide :=
  inferInstanceAs (Decidable (∀ t ∈ p.timers.pending, t.isHide = false))

/-- A run of `performFilter` followed by the firing of the pending hide
timers: the page once the fade-outs are over. -/
def filterAndSettle (p : ServicePage) : Except JsError ServicePage :=
  (performFilter p).map fireHideTimers

/-- A run of `performFilterWith` followed by the firing of the pending hide
timers. -/
def filterAndSettleWith (lower : String → String) (p : ServicePage) :
    Except JsError ServicePage :=
  (performFilterWith lower p).map fireHideTimers

/-- The show/hide state of the cards of a page, in document order. -/
def ServicePage.visibility (p : ServicePage) : List Bool :=
  p.cards.map (fun card => card.style.shown)

/-- The no-results element as `performFilter` leaves it. -/
def loopNoResults (s : Style) (visibleCount : Nat) : Style :=
  if visibleCount = 0 then
    { display := "block", animation := Animation.text "fadeInUp 0.5s ease both" }
  else { s with animation := Animation.text "fadeOut 0.3s ease both" }

/-- The timer `performFilter` schedules for the no-results element. -/
def noResultsTimers (visibleCount id : Nat) : List Timer :=
  if visibleCount = 0 then []
  else [{ id := id, delay := 300, action := TimerAction.hideNoResults }]

/-- The no-results element after a settled run in which `visibleCount`
cards were shown. -/
def settledNoResults (visibleCount : Nat) : Style :=
  if visibleCount = 0 then
    { display := "block", animation := Animation.text "fadeInUp 0.5s ease both" }
  else { display := "none", animation := Animation.text "fadeOut 0.3s ease both" }

/-- Does the price text pass the `switch` of `performFilter`? -/
def pricePasses (selectedPrice priceRange : String) : Bool :=
  !priceSwitchHides selectedPrice (parseInt (priceParts priceRange)[0]?)
    (parseInt (priceParts priceRange)[1]?)

/-- A style as the page is first rendered: nothing written inline. -/
def plainStyle : Style := { display := "", animation := Animation.text "" }

/-- A service card as first rendered, with its three attributes set and no
tag text. -/
def serviceCard (name category price : String) : ServiceCard :=
  { name := some name, category := some category, price := some price, tags := none,
    style := plainStyle }

/-- The two services of the worked example: Haircut and Massage. -/
def exampleCards : List ServiceCard :=
  [serviceCard "Haircut" "Hair" "$30-60", serviceCard "Massage" "Spa" "$80-150"]

/-- A services page at rest: the given criteria and cards, all elements
present, no timer pending. -/
def servicePage (query category price : String) (cards : List ServiceCard) : ServicePage :=
  { serviceSearch := some query, categoryFilter := some category, priceFilter := some price,
    cards := cards, noResults := some plainStyle,
    timers := { pending := [], nextId := 1 }, searchTimeout := none }

/-- Containment ignoring case, in the words of the specification: the
lower-cased query is a substring of the lower-cased text. -/
def containsIgnoreCase (text query : String) : Bool :=
  includes (toLowerCase text) (toLowerCase query)

/-- Containment ignoring case for a given lower-casing, in the words of the
specification: the lower-cased query is a substring of the lower-cased text. -/
def containsIgnoreCaseBy (lower : String → String) (text query : String) : Bool :=
  includes (lower text) (lower query)

/-- The four price brackets. -/
def priceBrackets : List String := ["0-50", "50-100", "100-200", "200+"]

/-- The inequality of a price bracket on the bounds `(min, max)`, in the
words of the specification. -/
def bracketHolds (bracket : String) (min max : Nat) : Bool :=
  if bracket = "0-50" then decide (min < 50)
  else if bracket = "50-100" then decide (min < 100 ∧ max ≥ 50)
  else if bracket = "100-200" then decide (min < 200 ∧ max ≥ 100)
  else decide (max ≥ 200)

/-- The show/hide state of the cards after a settled run of `performFilter`
under the given criteria. -/
def visibilityUnder (p : ServicePage) (query category price : String) :
    Except JsError (List Bool) :=
  (filterAndSettle { p with serviceSearch := some query, categoryFilter := some category,
                            priceFilter := some price }).map ServicePage.visibility

/-- A providers page at rest with the given query and cards. -/
def providerPage (query : String) (cards : List ProviderCard) : ProviderPage :=
  { searchProvider := some query, cards := cards, noResults := some plainStyle }

/-- Two provider cards with lower-case attributes. -/
def exampleProviders : List ProviderCard :=
  [ { name := some "anna", services := some "haircut,colour", style := plainStyle },
    { name := some "ben", services := some "massage", style := plainStyle } ]

/-- The pending recomputations: the `performFilter` timers in the queue. -/
def pendingRuns (p : ServicePage) : List Timer :=
  p.timers.pending.filter (fun t => decide (t.action = TimerAction.performFilter))

/-- Every pending recomputation is the one `searchTimeout` holds the id of.
This holds when the page is loaded (nothing is pending) and is kept by
`filterServices` and by the firing of a timer. -/
def ServicePage.RunsTracked (p : ServicePage) : Prop :=
  ∀ t ∈ p.timers.pending, t.action = TimerAction.performFilter → p.searchTimeout = some t.id

instance (p : ServicePage) : Decidable p.RunsTracked :=
  inferInstanceAs (Decidable (∀ t ∈ p.timers.pending,
    t.action = TimerAction.performFilter → p.searchTimeout = some t.id))

/-- The pages the scripts can bring about: a page as loaded (no timer pending,
`searchTimeout` not yet assigned), then any sequence of calls of
`filterServices` and of firings of pending timers. -/
inductive Reachable : ServicePage → Prop where
  | load (p : ServicePage) : p.timers.pending = [] → p.searchTimeout = none → Reachable p
  | call (p : ServicePage) : Reachable p → Reachable (filterServices p)
  | fire (p p' : ServicePage) (t : Timer) : Reachable p → t ∈ p.timers.pending →
      fireTimer t p = Except.ok p' → Reachable p'

/-- The pair `(minPrice, maxPrice)` that `performFilter` parses from the
price text of a card. -/
def parsePrice (priceRange : String) : JsNumber × JsNumber :=
  let price := priceParts priceRange
  (parseInt price[0]?, parseInt price[1]?)

/-- The attributes of a service card, its style left out: name, category,
price and tag text. -/
def ServiceCard.attributes (card : ServiceCard) :
    Option String × Option String × Option String × Option String :=
  (card.name, card.category, card.price, card.tags)

/-- The attributes of a provider card, its style left out: name and services
text. -/
def ProviderCard.attributes (card : ProviderCard) : Option String × Option String :=
  (card.name, card.services)

/-- The show/hide state of a services page: of every card in document order,
and of the no-results element. -/
def ServicePage.shownState (p : ServicePage) : List Bool × Option Bool :=
  (p.visibility, p.noResults.map Style.shown)

/-- The show/hide state of a providers page: of every card in document order,
and of the no-results element. -/
def ProviderPage.shownState (p : ProviderPage) : List Bool × Option Bool :=
  (p.cards.map (fun card => card.style.shown), p.noResults.map Style.shown)

/-- The cards after a hide action has run. -/
def hideCards (cards : List ServiceCard) : TimerAction → List ServiceCard
  | TimerAction.hideCard index =>
    cards.modify (fun card => { card with style := { card.style with display := "none" } }) index
  | _ => cards

/-- The no-results element after a hide action has run. -/
def hideIndicator (noResults : Option Style) : TimerAction → Option Style
  | TimerAction.hideNoResults => noResults.map (fun s => { s with display := "none" })
  | _ => noResults

/-- Setting the three inputs of the services page to the empty text, as the
first three lines of `clearFilters` do. -/
def setInputsEmpty (p : ServicePage) : Except JsError ServicePage := do
  let _ ← deref p.serviceSearch
  let _ ← deref p.categoryFilter
  let _ ← deref p.priceFilter
  pure { p with serviceSearch := some "", categoryFilter := some "", priceFilter := some "" }

/-- What is compared between two settled services pages: the three criteria,
the cards (attributes and style) and the `display` of the no-results element. -/
def ServicePage.outcome (p : ServicePage) :
    Option String × Option String × Option String × List ServiceCard × Option String :=
  (p.serviceSearch, p.categoryFilter, p.priceFilter, p.cards,
    p.noResults.map (fun s => s.display))

/-- The value of a run that returned; the given default when it raised. -/
def okOr {α : Type} (x : Except JsError α) (default : α) : α :=
  match x with
  | Except.ok a => a
  | Except.error _ => default

/-- Two services pages with the same criteria and item attributes (and the
no-results element present on both or on neither); the styles may differ. -/
def ServicePage.SameItems (p r : ServicePage) : Prop :=
  p.serviceSearch = r.serviceSearch ∧ p.categoryFilter = r.categoryFilter ∧
  p.priceFilter = r.priceFilter ∧
  p.cards.map ServiceCard.attributes = r.cards.map ServiceCard.attributes ∧
  p.noResults.isSome = r.noResults.isSome

instance (p r : ServicePage) : Decidable (p.SameItems r) :=
  inferInstanceAs (Decidable (_ ∧ _ ∧ _ ∧ _ ∧ _))

/-- Two providers pages with the same query and item attributes, the
no-results element present on both; the styles may differ. -/
def ProviderPage.SameItems (p r : ProviderPage) : Prop :=
  p.searchProvider = r.searchProvider ∧
  p.cards.map ProviderCard.attributes = r.cards.map ProviderCard.attributes ∧
  p.noResults.isSome = true ∧ r.noResults.isSome = true

instance (p r : ProviderPage) : Decidable (p.SameItems r) :=
  inferInstanceAs (Decidable (_ ∧ _ ∧ _ ∧ _))

/-- The hour of the 12-hour clock, in the words of the specification: 12 when
`h mod 12 = 0`, `h mod 12` otherwise. -/
def displayHourOf (h : Nat) : Nat := if h % 12 = 0 then 12 else h % 12

/-- The suffix of the 12-hour clock: `PM` iff `h >= 12`. -/
def meridiem (h : Nat) : String := if 12 ≤ h then "PM" else "AM"

/-- The text up to the first colon (the whole text when it has none). -/
def upToColon (m : String) : String := String.mk (m.data.takeWhile (fun c => c != ':'))

/-- A button as first rendered. -/
def exampleButton : Button :=
  { innerHTML := "Book", className := "btn btn-primary", disabled := false }

/-- One rule of the HTML parser, on characters: a newline that directly
follows a `<pre>` start tag is dropped. Every other character is kept. `seen`
holds the characters already read, the last one first. -/
def dropPreNewline (seen : List Char) : List Char → List Char
  | [] => []
  | c :: rest =>
    if c = '\n' ∧ ['>', 'e', 'r', 'p', '<'] <+: seen then dropPreNewline [] rest
    else c :: dropPreNewline (c :: seen) rest

/-- Parsing and serialising again, for text made of `<pre>` elements without
attributes and of characters other than `<`, `>` and `&`: the parser builds
each element with its text less one leading newline, the serialiser writes
the text of the element as it is. -/
def reparsePre (text : String) : String := ⟨dropPreNewline [] text.data⟩

/-- A button whose child is a `pre` element with the text of a newline and
`x` (built by script, with `textContent`): its `innerHTML` reads as below. -/
def preButton : Button :=
  { innerHTML := "<pre>\nx</pre>", className := "btn", disabled := false }

/-- A lower-casing that maps `É` to `é` besides the ASCII letters, as the
Unicode case table does: the instance for the examples with the query `CAFÉ`. -/
def lowerLatin (s : String) : String :=
  ⟨s.data.map (fun c => if c = 'É' then 'é' else c.toLower)⟩

/-- Two service cards, the first with a name outside ASCII. -/
def cafeCards : List ServiceCard :=
  [serviceCard "café" "Food" "$5-10", serviceCard "tea" "Food" "$3-6"]

/-- Two provider cards with lower-case attributes, the first with a name
outside ASCII. -/
def cafeProviders : List ProviderCard :=
  [ { name := some "café", services := some "coffee,cake", style := plainStyle },
    { name := some "ben", services := some "massage", style := plainStyle } ]

/-! # Theorems -/

/-! ## Strings: containment -/

theorem includesChars_iff (t s : List Char) : includesChars t s = true ↔ t <:+: s := by
  induction s with
  | nil => simp [includesChars]
  | cons c s ih =>
    simp only [includesChars, Bool.or_eq_true, ih, List.isPrefixOf_iff_prefix]
    rw [List.infix_cons_iff]

theorem includes_iff (s t : String) : includes s t = true ↔ t.data <:+: s.data :=
  includesChars_iff t.data s.data

theorem toLowerCase_empty : toLowerCase "" = "" := by decide

/-! ## Decimal digits -/

theorem radixDigit_digitChar (k : Nat) (hk : k < 10) :
    radixDigit 10 (Nat.digitChar k) = some k := by
  interval_cases k <;> decide

theorem IsDecimal.isSome {c : Char} (h : IsDecimal c) : (radixDigit 10 c).isSome = true := by
  obtain ⟨k, hk, rfl⟩ := h
  simp [radixDigit_digitChar k hk]

theorem IsDecimal.facts {c : Char} (h : IsDecimal c) :
    c ≠ '$' ∧ c ≠ '-' ∧ c ≠ ' ' ∧ c ≠ '+' ∧ c ≠ 'x' ∧ c ≠ 'X' ∧ isStrWhiteSpaceChar c = false := by
  obtain ⟨k, hk, rfl⟩ := h
  interval_cases k <;> decide

theorem digitsValue_append_singleton (R : Nat) (l : List Char) (c : Char) :
    digitsValue R (l ++ [c]) = digitsValue R l * R + (radixDigit R c).getD 0 := by
  simp [digitsValue, List.foldl_append]

theorem toDigitsCore_decimal (fuel : Nat) : ∀ (n : Nat) (ds : List Char), n < fuel →
    ∃ l, Nat.toDigitsCore 10 fuel n ds = l ++ ds ∧ l ≠ [] ∧ (∀ c ∈ l, IsDecimal c) ∧
      digitsValue 10 l = n := by
  induction fuel with
  | zero => intro n ds h; omega
  | succ fuel ih =>
    intro n ds h
    have hlt : n % 10 < 10 := Nat.mod_lt _ (by decide)
    have hd : IsDecimal (Nat.digitChar (n % 10)) := ⟨n % 10, hlt, rfl⟩
    simp only [Nat.toDigitsCore]
    by_cases h0 : n / 10 = 0
    · refine ⟨[Nat.digitChar (n % 10)], by simp [h0], by simp, by simpa using hd, ?_⟩
      have := digitsValue_append_singleton 10 [] (Nat.digitChar (n % 10))
      simp only [List.nil_append, radixDigit_digitChar _ hlt, Option.getD_some] at this
      rw [this]
      simp only [digitsValue, List.foldl_nil]
      omega
    · obtain ⟨l, hl, hne, hall, hval⟩ :=
        ih (n / 10) (Nat.digitChar (n % 10) :: ds) (by omega)
      refine ⟨l ++ [Nat.digitChar (n % 10)], by simp [h0, hl], by simp, ?_, ?_⟩
      · intro c hc
        rcases List.mem_append.1 hc with hc | hc
        · exact hall c hc
        · simpa [List.mem_singleton.1 hc] using hd
      · rw [digitsValue_append_singleton, hval, radixDigit_digitChar _ hlt]
        simp only [Option.getD_some]
        omega

theorem toDigits_decimal (n : Nat) :
    Nat.toDigits 10 n ≠ [] ∧ (∀ c ∈ Nat.toDigits 10 n, IsDecimal c) ∧
      digitsValue 10 (Nat.toDigits 10 n) = n := by
  obtain ⟨l, hl, hne, hall, hval⟩ := toDigitsCore_decimal (n + 1) n [] (Nat.lt_succ_self n)
  have : Nat.toDigits 10 n = l := by simpa [Nat.toDigits] using hl
  rw [this]
  exact ⟨hne, hall, hval⟩

theorem parseIntChars_decimal (l : List Char) (hne : l ≠ []) (hall : ∀ c ∈ l, IsDecimal c) :
    parseIntChars l = toNumber (digitsValue 10 l) := by
  obtain ⟨c, l, rfl⟩ := List.exists_cons_of_ne_nil hne
  have hc := (hall c (List.mem_cons_self _ _)).facts
  obtain ⟨_, hm, _, hp, _, _, hw⟩ := hc
  have htake : (c :: l).takeWhile (fun c => (radixDigit 10 c).isSome) = c :: l := by
    rw [List.takeWhile_eq_self_iff]
    intro d hd
    exact (hall d hd).isSome
  have hhex : ¬ ((c :: l).take 2 = ['0', 'x'] ∨ (c :: l).take 2 = ['0', 'X']) := by
    cases l with
    | nil => simp
    | cons d l =>
      have hd := (hall d (by simp)).facts
      simp [hd.2.2.2.2.1, hd.2.2.2.2.2.1]
  unfold parseIntChars
  simp only [List.dropWhile_cons, hw, Bool.false_eq_true, ↓reduceIte, List.head?_cons,
    Option.some.injEq, hm, hp, or_self, hhex, htake, List.isEmpty_cons, decide_False]
  unfold toNumber
  cases roundToDouble (digitsValue 10 (c :: l)) <;> simp

theorem priceText_example : priceText 30 60 = "$30-60" := by decide

theorem priceText_data (min max : Nat) :
    (priceText min max).data = '$' :: (Nat.toDigits 10 min ++ '-' :: Nat.toDigits 10 max) := by
  simp [priceText, toString, Nat.repr, List.asString]

theorem replaceFirst_not_mem (c : Char) (r l s : List Char) (h : c ∉ l) :
    replaceFirst c r (l ++ c :: s) = l ++ r ++ s := by
  induction l with
  | nil => simp [replaceFirst]
  | cons d l ih =>
    have hd : d ≠ c := fun e => h (by simp [e])
    have hl : c ∉ l := fun e => h (by simp [e])
    simp [replaceFirst, hd, ih hl]

theorem splitSpace_no_space (l : List Char) (h : ' ' ∉ l) : splitSpace l = [l] := by
  induction l with
  | nil => rfl
  | cons d l ih =>
    have hd : d ≠ ' ' := fun e => h (by simp [e])
    have hl : ' ' ∉ l := fun e => h (by simp [e])
    simp [splitSpace, hd, ih hl]

theorem splitSpace_one_space (l s : List Char) (hl : ' ' ∉ l) (hs : ' ' ∉ s) :
    splitSpace (l ++ ' ' :: s) = [l, s] := by
  induction l with
  | nil => simp [splitSpace, splitSpace_no_space s hs]
  | cons d l ih =>
    have hd : d ≠ ' ' := fun e => hl (by simp [e])
    have hl' : ' ' ∉ l := fun e => hl (by simp [e])
    simp [splitSpace, hd, ih hl']

theorem priceParts_priceText (min max : Nat) :
    priceParts (priceText min max) = [Nat.toDigits 10 min, Nat.toDigits 10 max] := by
  have hmin := (toDigits_decimal min).2.1
  have hmax := (toDigits_decimal max).2.1
  have h1 : '-' ∉ Nat.toDigits 10 min := fun h => (hmin _ h).facts.2.1 rfl
  have h2 : ' ' ∉ Nat.toDigits 10 min := fun h => (hmin _ h).facts.2.2.1 rfl
  have h3 : ' ' ∉ Nat.toDigits 10 max := fun h => (hmax _ h).facts.2.2.1 rfl
  unfold priceParts
  rw [priceText_data]
  simp only [replaceFirst, ↓reduceIte, List.nil_append]
  rw [replaceFirst_not_mem _ _ _ _ h1]
  simpa using splitSpace_one_space _ _ h2 h3

theorem parseInt_toDigits (n : Nat) : parseInt (some (Nat.toDigits 10 n)) = toNumber n := by
  obtain ⟨hne, hall, hval⟩ := toDigits_decimal n
  simp only [parseInt, Option.getD_some]
  rw [parseIntChars_decimal _ hne hall, hval]

/-! ## Rounding to a double -/

theorem bitLengthAux_le (fuel : Nat) : ∀ n, n ≠ 0 → n ≤ fuel →
    2 ^ (bitLengthAux fuel n - 1) ≤ n := by
  induction fuel with
  | zero => intro n h0 h; omega
  | succ fuel ih =>
    intro n h0 h
    simp only [bitLengthAux, h0, ↓reduceIte, Nat.add_sub_cancel]
    by_cases h2 : n / 2 = 0
    · cases fuel <;> simp [bitLengthAux, h2] <;> omega
    · have := ih (n / 2) h2 (by omega)
      have hpos : bitLengthAux fuel (n / 2) ≠ 0 := by
        cases fuel with
        | zero => omega
        | succ f => simp [bitLengthAux, h2]
      obtain ⟨k, hk⟩ := Nat.exists_eq_succ_of_ne_zero hpos
      rw [hk] at this ⊢
      simp only [Nat.succ_eq_add_one, Nat.add_sub_cancel] at this
      rw [Nat.pow_succ]
      omega

theorem two_pow_bitLength_le (n : Nat) (h0 : n ≠ 0) : 2 ^ (bitLength n - 1) ≤ n :=
  bitLengthAux_le n n h0 (Nat.le_refl n)

theorem bitLengthAux_lt (fuel : Nat) : ∀ n, n ≤ fuel → n < 2 ^ bitLengthAux fuel n := by
  induction fuel with
  | zero => intro n h; simp [bitLengthAux]; omega
  | succ fuel ih =>
    intro n h
    by_cases h0 : n = 0
    · simp [bitLengthAux, h0]
    · simp only [bitLengthAux, h0, ↓reduceIte]
      have := ih (n / 2) (by omega)
      rw [Nat.pow_succ]
      omega

/-- The binary length brackets the number: `2^(len-1) <= n < 2^len`. -/
theorem bitLength_bounds (n : Nat) (h0 : n ≠ 0) :
    2 ^ (bitLength n - 1) ≤ n ∧ n < 2 ^ bitLength n :=
  ⟨two_pow_bitLength_le n h0, bitLengthAux_lt n n (Nat.le_refl n)⟩

/-- Rounding at the first integers a double cannot hold: ties go to the even
significand. -/
theorem roundToDouble_examples :
    roundToDouble (2 ^ 53) = some (2 ^ 53) ∧
    roundToDouble (2 ^ 53 + 1) = some (2 ^ 53) ∧
    roundToDouble (2 ^ 53 + 2) = some (2 ^ 53 + 2) ∧
    roundToDouble (2 ^ 53 + 3) = some (2 ^ 53 + 4) ∧
    roundToDouble (2 ^ 60 + 129) = some (2 ^ 60 + 256) := by
  decide

/-- Rounding keeps small values and keeps large values large: a value below
`2^53` is exact, any other rounds to at least `2^52` or to `+Infinity`. -/
theorem roundToDouble_cases (n : Nat) :
    (n < 2 ^ 53 ∧ roundToDouble n = some n) ∨
    (2 ^ 53 ≤ n ∧ ∀ v, roundToDouble n = some v → 2 ^ 52 ≤ v) := by
  by_cases h : n < 2 ^ 53
  · left
    refine ⟨h, ?_⟩
    unfold roundToDouble
    rw [if_pos h]
  · right
    refine ⟨by omega, ?_⟩
    intro v hv
    have hn0 : n ≠ 0 := by
      intro e; rw [e] at h; exact h (by norm_num)
    have hb := two_pow_bitLength_le n hn0
    have hq : 2 ^ 52 ≤ n / 2 ^ (bitLength n - 53) := by
      rw [Nat.le_div_iff_mul_le (Nat.pos_pow_of_pos _ (by decide))]
      by_cases hs : bitLength n ≤ 53
      · have : bitLength n - 53 = 0 := by omega
        rw [this]; omega
      · have : 52 + (bitLength n - 53) = bitLength n - 1 := by omega
        rw [← Nat.pow_add, this]; exact hb
    have hpow : 1 ≤ 2 ^ (bitLength n - 53) := Nat.one_le_two_pow
    have hmul : ∀ q, 2 ^ 52 ≤ q → 2 ^ 52 ≤ q * 2 ^ (bitLength n - 53) := by
      intro q hq
      calc 2 ^ 52 ≤ q := hq
        _ = q * 1 := by omega
        _ ≤ _ := Nat.mul_le_mul_left _ hpow
    unfold roundToDouble at hv
    rw [if_neg h] at hv
    dsimp only at hv
    split_ifs at hv
    all_goals
      simp only [Option.some.injEq] at hv
      rw [← hv]
      first
        | exact hmul _ hq
        | exact hmul _ (Nat.le_succ_of_le hq)

theorem toNumber_ge (n B : Nat) (hB : B ≤ 2 ^ 52) :
    (toNumber n).ge (JsNumber.int B) = decide (B ≤ n) := by
  unfold toNumber
  rcases roundToDouble_cases n with ⟨h, e⟩ | ⟨h, e⟩
  · rw [e]
    by_cases hBn : B ≤ n
    · simp [JsNumber.ge, JsNumber.lt, hBn]
    · simp only [JsNumber.ge, JsNumber.lt, hBn, decide_False, Bool.not_eq_false',
        decide_eq_true_eq, Nat.cast_lt]
      omega
  · cases hv : roundToDouble n with
    | none =>
      simp only [JsNumber.ge, JsNumber.lt, Bool.not_false]
      have : B ≤ n := by omega
      simp [this]
    | some v =>
      have := e v hv
      have h1 : B ≤ n := by omega
      have h2 : B ≤ v := by omega
      simp [JsNumber.ge, JsNumber.lt, h1, h2]

theorem toNumber_lt (n B : Nat) (hB : B ≤ 2 ^ 52) :
    (toNumber n).lt (JsNumber.int B) = decide (n < B) := by
  unfold toNumber
  rcases roundToDouble_cases n with ⟨h, e⟩ | ⟨h, e⟩
  · rw [e]; simp [JsNumber.lt]
  · cases hv : roundToDouble n with
    | none =>
      have : ¬ n < B := by omega
      simp [JsNumber.lt, this]
    | some v =>
      have := e v hv
      have h1 : ¬ n < B := by omega
      have h2 : ¬ v < B := by omega
      simp [JsNumber.lt, h1, h2]

/-! ## The walk over the service cards -/

theorem decisions_length (s c pr : String) : ∀ (cards : List ServiceCard) (bs : List Bool),
    decisions s c pr cards = Except.ok bs → bs.length = cards.length := by
  intro cards
  induction cards with
  | nil => intro bs h; simp only [decisions, Except.ok.injEq] at h; simp [← h]
  | cons card rest ih =>
    intro bs h
    simp only [decisions] at h
    split at h
    · simp at h
    · split at h
      · simp at h
      · rename_i bs' hbs
        simp only [Except.ok.injEq] at h
        simp [← h, ih bs' hbs]

theorem decisions_of_forall (s c pr : String) (dec : ServiceCard → Bool) :
    ∀ (cards : List ServiceCard),
      (∀ card ∈ cards, showCard s c pr card = Except.ok (dec card)) →
      decisions s c pr cards = Except.ok (cards.map dec) := by
  intro cards
  induction cards with
  | nil => intro _; rfl
  | cons card rest ih =>
    intro h
    simp only [decisions, h card (List.mem_cons_self _ _),
      ih (fun x hx => h x (List.mem_cons_of_mem _ hx)), List.map_cons]

theorem forEachCard_eq (s c pr : String) : ∀ (cards : List ServiceCard) (index : Nat)
    (q : TimerQueue) (n : Nat),
    forEachCard s c pr index cards q n =
      match decisions s c pr cards with
      | Except.error e => Except.error e
      | Except.ok bs =>
        Except.ok (loopCards bs index cards,
          { pending := q.pending ++ loopTimers bs index q.nextId,
            nextId := q.nextId + bs.count false },
          n + bs.count true) := by
  intro cards
  induction cards with
  | nil => intro index q n; simp [forEachCard, decisions, loopCards, loopTimers, pure, Except.pure]
  | cons card rest ih =>
    intro index q n
    simp only [forEachCard, decisions, bind, Except.bind]
    cases hsc : showCard s c pr card with
    | error e => rfl
    | ok b =>
      cases b with
      | true =>
        simp only [↓reduceIte, ih, bind, Except.bind]
        cases hd : decisions s c pr rest with
        | error e => rfl
        | ok bs =>
          simp only [pure, Except.pure, loopCards, loopTimers, ↓reduceIte, List.count_cons,
            beq_self_eq_true, Except.ok.injEq, Prod.mk.injEq, true_and, shownCard]
          simp
          omega
      | false =>
        simp only [Bool.false_eq_true, ↓reduceIte, ih, bind, Except.bind, TimerQueue.setTimeout]
        cases hd : decisions s c pr rest with
        | error e => rfl
        | ok bs =>
          simp only [pure, Except.pure, loopCards, loopTimers, List.count_cons,
            Except.ok.injEq, Prod.mk.injEq, true_and, fadingCard]
          simp
          omega

theorem modify_append_length {α : Type} (f : α → α) (pre : List α) (x : α) (tail : List α) :
    (pre ++ x :: tail).modify f pre.length = pre ++ f x :: tail := by
  induction pre with
  | nil => simp [List.modify]
  | cons a pre ih => simpa [List.modify] using ih

theorem loopTimers_isHide : ∀ (bs : List Bool) (index id : Nat),
    ∀ t ∈ loopTimers bs index id, t.isHide = true := by
  intro bs
  induction bs with
  | nil => intro index id t ht; simp [loopTimers] at ht
  | cons b bs ih =>
    intro index id t ht
    cases b with
    | true => exact ih _ _ t (by simpa [loopTimers] using ht)
    | false =>
      simp only [loopTimers, List.mem_cons] at ht
      rcases ht with rfl | ht
      · rfl
      · exact ih _ _ t ht

theorem foldl_runHide_loopTimers : ∀ (bs : List Bool) (cards pre : List ServiceCard) (id : Nat)
    (p : ServicePage), bs.length = cards.length →
    p.cards = pre ++ loopCards bs pre.length cards →
    (loopTimers bs pre.length id).foldl (fun p t => runHide p t.action) p =
      { p with cards := pre ++ settledCards bs pre.length cards } := by
  intro bs
  induction bs with
  | nil =>
    intro cards pre id p hlen hp
    have : cards = [] := by simpa using hlen.symm
    subst this
    simp only [loopCards] at hp
    simp [loopTimers, settledCards, ← hp]
  | cons b bs ih =>
    intro cards pre id p hlen hp
    cases cards with
    | nil => simp at hlen
    | cons card rest =>
      have hlen' : bs.length = rest.length := by simpa using hlen
      cases b with
      | true =>
        simp only [loopCards, ↓reduceIte] at hp
        have key := ih rest (pre ++ [shownCard pre.length card]) id p hlen' (by simpa using hp)
        simp only [List.length_append, List.length_singleton] at key
        simp only [loopTimers, settledCards, ↓reduceIte, key]
        simp
      | false =>
        simp only [loopCards, Bool.false_eq_true, ↓reduceIte] at hp
        simp only [loopTimers, List.foldl_cons, settledCards, Bool.false_eq_true, ↓reduceIte]
        have hstep : runHide p (TimerAction.hideCard pre.length) =
            { p with cards := pre ++ hiddenCard card :: loopCards bs (pre.length + 1) rest } := by
          simp only [runHide, hp, modify_append_length]
          rfl
        rw [hstep]
        have key := ih rest (pre ++ [hiddenCard card]) (id + 1)
          { p with cards := pre ++ hiddenCard card :: loopCards bs (pre.length + 1) rest }
          hlen' (by simp)
        simp only [List.length_append, List.length_singleton] at key
        rw [key]
        simp

theorem settledCards_visibility : ∀ (bs : List Bool) (index : Nat) (cards : List ServiceCard),
    bs.length = cards.length →
    (settledCards bs index cards).map (fun card => card.style.shown) = bs := by
  intro bs
  induction bs with
  | nil => intro index cards _; simp [settledCards]
  | cons b bs ih =>
    intro index cards hlen
    cases cards with
    | nil => simp at hlen
    | cons card rest =>
      have hlen' : bs.length = rest.length := by simpa using hlen
      cases b <;> simp only [settledCards, List.map_cons, ih _ rest hlen'] <;>
        simp [Style.shown, shownCard, hiddenCard]

/-- The page `performFilterWith` returns, given the decisions of the walk. -/
theorem performFilterWith_eq (lower : String → String) (p : ServicePage)
    (q c pr : String) (s : Style) (bs : List Bool)
    (hq : p.serviceSearch = some q) (hc : p.categoryFilter = some c)
    (hpr : p.priceFilter = some pr) (hnr : p.noResults = some s)
    (hd : decisions (lower q) c pr p.cards = Except.ok bs) :
    performFilterWith lower p = Except.ok { p with
      cards := loopCards bs 0 p.cards,
      noResults := some (loopNoResults s (bs.count true)),
      timers := { pending := p.timers.pending ++ (loopTimers bs 0 p.timers.nextId ++
                    noResultsTimers (bs.count true) (p.timers.nextId + bs.count false)),
                  nextId := p.timers.nextId + bs.count false +
                    (if bs.count true = 0 then 0 else 1) } } := by
  simp only [performFilterWith, hq, hc, hpr, hnr, deref, bind, Except.bind,
    forEachCard_eq, hd, Nat.zero_add]
  by_cases hz : bs.count true = 0
  · simp [hz, pure, Except.pure, loopNoResults, noResultsTimers]
  · simp [hz, pure, Except.pure, loopNoResults, noResultsTimers, TimerQueue.setTimeout]

theorem performFilter_eq (p : ServicePage) (q c pr : String) (s : Style) (bs : List Bool)
    (hq : p.serviceSearch = some q) (hc : p.categoryFilter = some c)
    (hpr : p.priceFilter = some pr) (hnr : p.noResults = some s)
    (hd : decisions (toLowerCase q) c pr p.cards = Except.ok bs) :
    performFilter p = Except.ok { p with
      cards := loopCards bs 0 p.cards,
      noResults := some (loopNoResults s (bs.count true)),
      timers := { pending := p.timers.pending ++ (loopTimers bs 0 p.timers.nextId ++
                    noResultsTimers (bs.count true) (p.timers.nextId + bs.count false)),
                  nextId := p.timers.nextId + bs.count false +
                    (if bs.count true = 0 then 0 else 1) } } :=
  performFilterWith_eq toLowerCase p q c pr s bs hq hc hpr hnr hd

theorem fireHideTimers_eq (p : ServicePage) (old new : List Timer)
    (hp : p.timers.pending = old ++ new) (hold : ∀ t ∈ old, t.isHide = false)
    (hnew : ∀ t ∈ new, t.isHide = true) :
    fireHideTimers p =
      { new.foldl (fun p t => runHide p t.action) p with
        timers := { pending := old, nextId := p.timers.nextId } } := by
  have hf1 : old.filter Timer.isHide = [] := by
    rw [List.filter_eq_nil_iff]; intro t ht; simp [hold t ht]
  have hf2 : old.filter (fun t => !t.isHide) = old := by
    rw [List.filter_eq_self]; intro t ht; simp [hold t ht]
  have hf3 : new.filter Timer.isHide = new := by
    rw [List.filter_eq_self]; exact hnew
  have hf4 : new.filter (fun t => !t.isHide) = [] := by
    rw [List.filter_eq_nil_iff]; intro t ht; simp [hnew t ht]
  have htimers : ∀ (ts : List Timer) (p0 : ServicePage),
      (ts.foldl (fun p t => runHide p t.action) p0).timers = p0.timers := by
    intro ts
    induction ts with
    | nil => intro p0; rfl
    | cons t ts ih =>
      intro p0
      rw [List.foldl_cons, ih]
      cases t.action <;> rfl
  simp only [fireHideTimers, hp, List.filter_append, hf1, hf2, hf3, hf4, List.nil_append,
    List.append_nil, htimers]

/-- The page after a settled run of `performFilterWith`, given the decisions
of the walk. -/
theorem performFilterWith_settled (lower : String → String) (p : ServicePage)
    (q c pr : String) (s : Style) (bs : List Bool)
    (hq : p.serviceSearch = some q) (hc : p.categoryFilter = some c)
    (hpr : p.priceFilter = some pr) (hnr : p.noResults = some s)
    (hd : decisions (lower q) c pr p.cards = Except.ok bs)
    (hrest : p.NoPendingHide) :
    filterAndSettleWith lower p = Except.ok { p with
      cards := settledCards bs 0 p.cards,
      noResults := some (settledNoResults (bs.count true)),
      timers := { pending := p.timers.pending,
                  nextId := p.timers.nextId + bs.count false +
                    (if bs.count true = 0 then 0 else 1) } } := by
  have hlen := decisions_length _ _ _ _ _ hd
  have hnewHide : ∀ t ∈ loopTimers bs 0 p.timers.nextId ++
      noResultsTimers (bs.count true) (p.timers.nextId + bs.count false), t.isHide = true := by
    intro t ht
    rcases List.mem_append.1 ht with h | h
    · exact loopTimers_isHide _ _ _ t h
    · unfold noResultsTimers at h
      split at h
      · simp at h
      · simp only [List.mem_singleton] at h
        rw [h]; rfl
  simp only [filterAndSettleWith, performFilterWith_eq lower p q c pr s bs hq hc hpr hnr hd,
    Except.map]
  rw [fireHideTimers_eq _ p.timers.pending _ rfl hrest hnewHide, List.foldl_append]
  have hfold := foldl_runHide_loopTimers bs p.cards [] p.timers.nextId
    { p with
      cards := loopCards bs 0 p.cards,
      noResults := some (loopNoResults s (bs.count true)),
      timers := { pending := p.timers.pending ++ (loopTimers bs 0 p.timers.nextId ++
                    noResultsTimers (bs.count true) (p.timers.nextId + bs.count false)),
                  nextId := p.timers.nextId + bs.count false +
                    (if bs.count true = 0 then 0 else 1) } } hlen (by simp)
  simp only [List.length_nil, List.nil_append] at hfold
  rw [hfold]
  by_cases hz : bs.count true = 0
  · simp [hz, noResultsTimers, loopNoResults, settledNoResults]
  · simp [hz, noResultsTimers, loopNoResults, settledNoResults, runHide]

theorem performFilter_settled (p : ServicePage) (q c pr : String) (s : Style) (bs : List Bool)
    (hq : p.serviceSearch = some q) (hc : p.categoryFilter = some c)
    (hpr : p.priceFilter = some pr) (hnr : p.noResults = some s)
    (hd : decisions (toLowerCase q) c pr p.cards = Except.ok bs)
    (hrest : p.NoPendingHide) :
    filterAndSettle p = Except.ok { p with
      cards := settledCards bs 0 p.cards,
      noResults := some (settledNoResults (bs.count true)),
      timers := { pending := p.timers.pending,
                  nextId := p.timers.nextId + bs.count false +
                    (if bs.count true = 0 then 0 else 1) } } :=
  performFilterWith_settled toLowerCase p q c pr s bs hq hc hpr hnr hd hrest

/-! ## The value of `showCard` -/

theorem toLowerCase_eq_empty (q : String) : toLowerCase q = "" ↔ q = "" := by
  constructor
  · intro h
    have h1 : (toLowerCase q).data = [] := by rw [h]
    simp only [toLowerCase, List.map_eq_nil_iff] at h1
    exact String.ext h1
  · intro h; rw [h]; decide

theorem lowerLatin_eq_empty (q : String) : lowerLatin q = "" ↔ q = "" := by
  constructor
  · intro h
    have h1 : (lowerLatin q).data = [] := by rw [h]
    simp only [lowerLatin, List.map_eq_nil_iff] at h1
    exact String.ext h1
  · intro h; rw [h]; decide

theorem showCard_inactive (card : ServiceCard) : showCard "" "" "" card = Except.ok true := by
  simp [showCard, pure, Except.pure, bind, Except.bind]

theorem showCard_query (s : String) (hs : s ≠ "") (card : ServiceCard) :
    showCard s "" "" card = (deref card.name).map (fun name => includes name s) := by
  cases hn : card.name <;>
    simp [showCard, hs, hn, deref, pure, Except.pure, bind, Except.bind, Except.map]

theorem showCard_category (c : String) (card : ServiceCard) :
    showCard "" c "" card = Except.ok (decide (c = "" ∨ card.category = some c)) := by
  by_cases hc : c = "" <;> by_cases hcat : card.category = some c <;>
    simp [showCard, hc, hcat, pure, Except.pure, bind, Except.bind]

theorem showCard_price (pr : String) (hpr : pr ≠ "") (card : ServiceCard) :
    showCard "" "" pr card = (deref card.price).map (fun priceRange => pricePasses pr priceRange) := by
  cases hn : card.price <;>
    simp [showCard, hpr, hn, deref, pure, Except.pure, bind, Except.bind, Except.map, pricePasses]

/-- The three checks of `showCard` are independent: its value is the
conjunction of its values under each criterion alone, and it raises exactly
when one of those raises. -/
theorem showCard_and (s c pr : String) (card : ServiceCard) :
    showCard s c pr card = (do
      let a ← showCard s "" "" card
      let b ← showCard "" c "" card
      let d ← showCard "" "" pr card
      pure (a && b && d)) := by
  by_cases hs : s = "" <;> by_cases hc : c = "" <;> by_cases hpr : pr = "" <;>
    cases hn : card.name <;> cases hp : card.price <;>
    by_cases hcat : card.category = some c <;>
    simp [showCard, hs, hc, hpr, hn, hp, hcat, deref, pure, Except.pure, bind, Except.bind] <;>
    exact Bool.and_comm _ _

theorem decisions_inactive (cards : List ServiceCard) :
    decisions "" "" "" cards = Except.ok (cards.map (fun _ => true)) :=
  decisions_of_forall _ _ _ _ cards (fun card _ => showCard_inactive card)

theorem decisions_and (s c pr : String) : ∀ (cards : List ServiceCard),
    decisions s c pr cards = (do
      let a ← decisions s "" "" cards
      let b ← decisions "" c "" cards
      let d ← decisions "" "" pr cards
      pure (List.zipWith (fun x y => x && y) (List.zipWith (fun x y => x && y) a b) d)) := by
  intro cards
  induction cards with
  | nil => rfl
  | cons card rest ih =>
    simp only [decisions]
    rw [showCard_and s c pr card, ih]
    rw [showCard_category]
    cases h1 : showCard s "" "" card <;> cases h3 : showCard "" "" pr card <;>
      cases h4 : decisions s "" "" rest <;> cases h5 : decisions "" c "" rest <;>
      cases h6 : decisions "" "" pr rest <;>
      simp [bind, Except.bind, pure, Except.pure]

theorem map_eq_ok {α β : Type} {f : α → β} {x : Except JsError α} {y : β}
    (h : x.map f = Except.ok y) : ∃ a, x = Except.ok a ∧ f a = y := by
  cases x with
  | error e => simp [Except.map] at h
  | ok a => exact ⟨a, rfl, by simpa [Except.map] using h⟩

/-- The settled run of `performFilterWith` in terms of the decisions, for
every lower-casing. -/
theorem filterAndSettleWith_visibility (lower : String → String) (p : ServicePage)
    (q c pr : String) (s : Style)
    (hq : p.serviceSearch = some q) (hc : p.categoryFilter = some c)
    (hpr : p.priceFilter = some pr) (hnr : p.noResults = some s) (hrest : p.NoPendingHide) :
    (filterAndSettleWith lower p).map ServicePage.visibility = decisions (lower q) c pr p.cards := by
  cases hd : decisions (lower q) c pr p.cards with
  | error e =>
    simp [filterAndSettleWith, performFilterWith, hq, hc, hpr, deref, bind, Except.bind,
      forEachCard_eq, hd, Except.map]
  | ok bs =>
    rw [performFilterWith_settled lower p q c pr s bs hq hc hpr hnr hd hrest]
    simp only [Except.map, ServicePage.visibility]
    rw [settledCards_visibility bs 0 p.cards (decisions_length _ _ _ _ _ hd)]

/-- The settled run in terms of the decisions: with the inputs and the
no-results element present and no earlier hide timer pending, the cards end
up shown or hidden as `showCard` decided. -/
theorem filterAndSettle_visibility (p : ServicePage) (q c pr : String) (s : Style)
    (hq : p.serviceSearch = some q) (hc : p.categoryFilter = some c)
    (hpr : p.priceFilter = some pr) (hnr : p.noResults = some s) (hrest : p.NoPendingHide) :
    (filterAndSettle p).map ServicePage.visibility = decisions (toLowerCase q) c pr p.cards :=
  filterAndSettleWith_visibility toLowerCase p q c pr s hq hc hpr hnr hrest

/-! ## C1: the free-text query -/

/-- C1, refuted as stated: with the category and price filters inactive and
the query `hair`, the card named `Haircut` contains the query as a
case-insensitive substring, yet `performFilter` hides it (the name is compared
as stored, only the query is lower-cased); and with the query `relax` a card
whose tag text is `relaxing` is hidden (no tag text is read). -/
theorem performFilter_query_case_counterexample :
    containsIgnoreCase "Haircut" "hair" = true ∧
    (filterAndSettle (servicePage "hair" "" "" exampleCards)).map ServicePage.visibility
      = Except.ok [false, false] ∧
    containsIgnoreCase "relaxing" "relax" = true ∧
    (filterAndSettle (servicePage "relax" "" ""
      [{ serviceCard "massage" "Spa" "$80-150" with tags := some "relaxing" }])).map
      ServicePage.visibility = Except.ok [false] := by
  decide

/-- C1, amended: with the category and price filters inactive, for every
non-empty query and every set of service cards whose name attributes are set,
`performFilter` runs without error and the cards shown are exactly the cards
whose stored name contains the lower-cased query as a substring; when the
names are stored in lower case, these are exactly the cards whose name
contains the query as a case-insensitive substring. No tag text is consulted.
The lower-casing is any function that maps no non-empty text to the empty
text, as `String.prototype.toLowerCase` with its Unicode case table. -/
theorem performFilter_query_visible (lower : String → String) (p : ServicePage)
    (q : String) (s : Style) (hkeep : ∀ t : String, t ≠ "" → lower t ≠ "")
    (hq : p.serviceSearch = some q) (hne : q ≠ "")
    (hc : p.categoryFilter = some "") (hpr : p.priceFilter = some "")
    (hnr : p.noResults = some s) (hrest : p.NoPendingHide)
    (hnames : ∀ card ∈ p.cards, card.name ≠ none) :
    (filterAndSettleWith lower p).map ServicePage.visibility =
      Except.ok (p.cards.map (fun card => includes (card.name.getD "") (lower q))) ∧
    ((∀ card ∈ p.cards, lower (card.name.getD "") = card.name.getD "") →
      (filterAndSettleWith lower p).map ServicePage.visibility =
        Except.ok (p.cards.map
          (fun card => containsIgnoreCaseBy lower (card.name.getD "") q))) := by
  have key : (filterAndSettleWith lower p).map ServicePage.visibility =
      Except.ok (p.cards.map (fun card => includes (card.name.getD "") (lower q))) := by
    rw [filterAndSettleWith_visibility lower p q "" "" s hq hc hpr hnr hrest]
    apply decisions_of_forall
    intro card hcard
    obtain ⟨name, hname⟩ := Option.ne_none_iff_exists'.1 (hnames card hcard)
    rw [showCard_query _ (hkeep q hne), hname]
    simp [deref, Except.map]
  refine ⟨key, fun hlow => ?_⟩
  rw [key]
  congr 1
  apply List.map_congr_left
  intro card hcard
  simp only [containsIgnoreCaseBy, hlow card hcard]

/-- The amended C1 at a concrete page, with a lower-casing that knows `É`:
the query `CAFÉ` on the lower-case names `café` and `tea` shows the first
card only. -/
theorem performFilter_query_visible_witness :
    (filterAndSettleWith lowerLatin (servicePage "CAFÉ" "" "" cafeCards)).map
      ServicePage.visibility = Except.ok [true, false] ∧
    (filterAndSettleWith lowerLatin (servicePage "CAFÉ" "" "" cafeCards)).map
      ServicePage.visibility =
        Except.ok (cafeCards.map (fun card =>
          containsIgnoreCaseBy lowerLatin (card.name.getD "") "CAFÉ")) :=
  have h := performFilter_query_visible lowerLatin (servicePage "CAFÉ" "" "" cafeCards)
    "CAFÉ" plainStyle (fun t ht h => ht ((lowerLatin_eq_empty t).1 h)) rfl (by decide)
    rfl rfl rfl (by decide) (by decide)
  ⟨h.1, h.2 (by decide)⟩

/-- The query `CUT` on the names `haircut` and `massage` shows the first card
only; on the name `Haircut`, stored with a capital, it shows none. -/
theorem performFilter_query_example :
    (filterAndSettle (servicePage "CUT" "" ""
        [serviceCard "haircut" "Hair" "$30-60", serviceCard "massage" "Spa" "$80-150"])).map
      ServicePage.visibility = Except.ok [true, false] ∧
    (filterAndSettle (servicePage "HAIR" "" ""
        [serviceCard "Haircut" "Hair" "$30-60"])).map
      ServicePage.visibility = Except.ok [false] := by
  decide

/-! ## C2: the price brackets -/

theorem toNumber_ge_not_lt (n B : Nat) (hB : B ≤ 2 ^ 52) :
    (toNumber n).ge (JsNumber.int B) = !decide (n < B) := by
  rw [toNumber_ge n B hB]
  by_cases h : B ≤ n
  · have h2 : ¬ n < B := by omega
    simp [h, h2]
  · have h2 : n < B := by omega
    simp [h, h2]

theorem toNumber_lt_not_ge (n B : Nat) (hB : B ≤ 2 ^ 52) :
    (toNumber n).lt (JsNumber.int B) = !decide (B ≤ n) := by
  rw [toNumber_lt n B hB]
  by_cases h : B ≤ n
  · have h2 : ¬ n < B := by omega
    simp [h, h2]
  · have h2 : n < B := by omega
    simp [h, h2]

theorem pricePasses_priceText (b : String) (hb : b ∈ priceBrackets) (min max : Nat) :
    pricePasses b (priceText min max) = bracketHolds b min max := by
  have h50 : (50 : Nat) ≤ 2 ^ 52 := by norm_num
  have h100 : (100 : Nat) ≤ 2 ^ 52 := by norm_num
  have h200 : (200 : Nat) ≤ 2 ^ 52 := by norm_num
  have g50 := toNumber_ge_not_lt min 50 h50
  have g100 := toNumber_ge_not_lt min 100 h100
  have g200 := toNumber_ge_not_lt min 200 h200
  have l50 := toNumber_lt_not_ge max 50 h50
  have l100 := toNumber_lt_not_ge max 100 h100
  have l200 := toNumber_lt_not_ge max 200 h200
  simp only [Nat.cast_ofNat] at g50 g100 g200 l50 l100 l200
  simp only [pricePasses, priceParts_priceText, List.getElem?_cons_zero, List.getElem?_cons_succ,
    parseInt_toDigits]
  simp only [priceBrackets, List.mem_cons, List.mem_singleton, List.not_mem_nil, or_false] at hb
  rcases hb with rfl | rfl | rfl | rfl <;>
    simp [priceSwitchHides, bracketHolds, g50, g100, g200, l50, l100, l200]

theorem decisions_price (b : String) (hb : b ∈ priceBrackets) :
    ∀ (cards : List ServiceCard) (bounds : List (Nat × Nat)),
      cards.map (fun card => card.price) =
        bounds.map (fun mm => some (priceText mm.1 mm.2)) →
      decisions "" "" b cards = Except.ok (bounds.map (fun mm => bracketHolds b mm.1 mm.2)) := by
  have hne : b ≠ "" := by
    intro h; rw [h] at hb; revert hb; decide
  intro cards
  induction cards with
  | nil =>
    intro bounds h
    cases bounds with
    | nil => rfl
    | cons mm bounds => simp at h
  | cons card rest ih =>
    intro bounds h
    cases bounds with
    | nil => simp at h
    | cons mm bounds =>
      simp only [List.map_cons, List.cons.injEq] at h
      simp only [decisions, showCard_price b hne, h.1, deref, Except.map, ih bounds h.2,
        pricePasses_priceText b hb, List.map_cons]

/-- C2: with the query and category inactive, for every one of the four price
brackets and every set of service cards carrying a price attribute,
`performFilter` runs without error and every card whose price text is
`$<min>-<max>` with natural numbers as bounds is shown iff its bounds satisfy
the inequality of the bracket (`0-50`: min < 50; `50-100`: min < 100 and
max >= 50; `100-200`: min < 200 and max >= 100; `200+`: max >= 200). When all
the cards have such a price text, the cards shown are exactly those whose
bounds satisfy the inequality. -/
theorem performFilter_price_visible (p : ServicePage) (b : String) (s : Style)
    (hb : b ∈ priceBrackets)
    (hq : p.serviceSearch = some "") (hc : p.categoryFilter = some "")
    (hpr : p.priceFilter = some b) (hnr : p.noResults = some s) (hrest : p.NoPendingHide)
    (hprices : ∀ card ∈ p.cards, card.price.isSome = true) :
    ∃ p', filterAndSettle p = Except.ok p' ∧
      (∀ (i : Nat) (card : ServiceCard) (min max : Nat),
        p.cards[i]? = some card → card.price = some (priceText min max) →
        p'.visibility[i]? = some (bracketHolds b min max)) ∧
      (∀ bounds : List (Nat × Nat),
        p.cards.map (fun card => card.price) =
          bounds.map (fun mm => some (priceText mm.1 mm.2)) →
        p'.visibility = bounds.map (fun mm => bracketHolds b mm.1 mm.2)) := by
  have hne : b ≠ "" := by
    intro h; rw [h] at hb; revert hb; decide
  have hd : decisions "" "" b p.cards = Except.ok (p.cards.map
      (fun card => pricePasses b (card.price.getD ""))) := by
    apply decisions_of_forall
    intro card hcard
    obtain ⟨t, ht⟩ := Option.isSome_iff_exists.1 (hprices card hcard)
    simp [showCard_price b hne, ht, deref, Except.map]
  have hv := filterAndSettle_visibility p "" "" b s hq hc hpr hnr hrest
  rw [toLowerCase_empty, hd] at hv
  obtain ⟨p', hp', hvis⟩ := map_eq_ok hv
  refine ⟨p', hp', ?_, ?_⟩
  · intro i card min max hi ht
    rw [hvis, List.getElem?_map, hi]
    simp [ht, pricePasses_priceText b hb]
  · intro bounds hbounds
    have h2 := decisions_price b hb p.cards bounds hbounds
    rw [hd] at h2
    rw [hvis]
    exact Except.ok.inj h2

/-- C2 at the worked example: the bracket `50-100` on the cards priced
`$30-60` and `$80-150`. -/
theorem performFilter_price_visible_witness :
    ∃ p', filterAndSettle (servicePage "" "" "50-100" exampleCards) = Except.ok p' ∧
      (∀ (i : Nat) (card : ServiceCard) (min max : Nat),
        (servicePage "" "" "50-100" exampleCards).cards[i]? = some card →
        card.price = some (priceText min max) →
        p'.visibility[i]? = some (bracketHolds "50-100" min max)) ∧
      (∀ bounds : List (Nat × Nat),
        (servicePage "" "" "50-100" exampleCards).cards.map (fun card => card.price) =
          bounds.map (fun mm => some (priceText mm.1 mm.2)) →
        p'.visibility = bounds.map (fun mm => bracketHolds "50-100" mm.1 mm.2)) :=
  performFilter_price_visible _ "50-100" plainStyle (by decide) rfl rfl rfl rfl
    (by decide) (by decide)

/-- The worked example of the price bracket: under `50-100` both cards are
shown. -/
theorem performFilter_price_example :
    (filterAndSettle (servicePage "" "" "50-100" exampleCards)).map ServicePage.visibility =
      Except.ok [true, true] := by
  decide

/-! ## C3: price text that does not parse -/

theorem priceSwitchHides_nan (b : String) :
    priceSwitchHides b JsNumber.nan JsNumber.nan = false := by
  unfold priceSwitchHides
  split_ifs <;> rfl

/-- C3, refuted as stated: with the price bracket `0-50` active (query and
category inactive), the cards whose price texts are `free`, `$30`, the empty
text and `$ 30-60` are all shown: a bound that parses to `NaN` fails every
comparison of the `switch`, so it never hides the card. -/
theorem performFilter_malformed_price_counterexample :
    (filterAndSettle (servicePage "" "" "0-50"
      [ serviceCard "Gift" "Misc" "free", serviceCard "Trim" "Hair" "$30",
        serviceCard "Chat" "Misc" "", serviceCard "Haircut" "Hair" "$ 30-60" ])).map
      ServicePage.visibility = Except.ok [true, true, true, true] := by
  decide

/-- C3, amended: with a price bracket selected (query and category inactive)
and every card carrying a price attribute, `performFilter` runs without error
and every card whose price text yields no number for either bound (both
`parseInt` results are `NaN`, as for `free` or the empty text) is shown,
whichever bracket is selected. -/
theorem performFilter_unparsed_price_shown (p : ServicePage) (b : String) (s : Style)
    (hq : p.serviceSearch = some "") (hc : p.categoryFilter = some "")
    (hpr : p.priceFilter = some b) (hnr : p.noResults = some s) (hrest : p.NoPendingHide)
    (hprices : ∀ card ∈ p.cards, card.price.isSome = true) :
    ∃ p', filterAndSettle p = Except.ok p' ∧
      ∀ (i : Nat) (card : ServiceCard) (priceRange : String),
        p.cards[i]? = some card → card.price = some priceRange →
        parseInt (priceParts priceRange)[0]? = JsNumber.nan →
        parseInt (priceParts priceRange)[1]? = JsNumber.nan →
        p'.visibility[i]? = some true := by
  have hd : decisions "" "" b p.cards = Except.ok (p.cards.map
      (fun card => if b = "" then true else pricePasses b (card.price.getD ""))) := by
    apply decisions_of_forall
    intro card hcard
    by_cases hb : b = ""
    · simp [hb, showCard_inactive]
    · obtain ⟨t, ht⟩ := Option.isSome_iff_exists.1 (hprices card hcard)
      simp [showCard_price b hb, ht, deref, Except.map, hb]
  have hv := filterAndSettle_visibility p "" "" b s hq hc hpr hnr hrest
  rw [toLowerCase_empty, hd] at hv
  obtain ⟨p', hp', hvis⟩ := map_eq_ok hv
  refine ⟨p', hp', ?_⟩
  intro i card t hi ht h0 h1
  rw [hvis, List.getElem?_map, hi]
  simp [ht, pricePasses, h0, h1, priceSwitchHides_nan]

/-- The amended C3 at a concrete page: the price text `free` under the
bracket `200+`. -/
theorem performFilter_unparsed_price_shown_witness :
    ∃ p', filterAndSettle (servicePage "" "" "200+"
        [serviceCard "Gift" "Misc" "free"])
        = Except.ok p' ∧
      ∀ (i : Nat) (card : ServiceCard) (priceRange : String),
        (servicePage "" "" "200+"
          [serviceCard "Gift" "Misc" "free"]).cards[i]?
          = some card → card.price = some priceRange →
        parseInt (priceParts priceRange)[0]? = JsNumber.nan →
        parseInt (priceParts priceRange)[1]? = JsNumber.nan →
        p'.visibility[i]? = some true :=
  performFilter_unparsed_price_shown _ "200+" plainStyle rfl rfl rfl rfl
    (by decide) (by decide)

/-! ## C4: all criteria empty -/

/-- C4, the failing input: on a services page with no service card and all
three criteria empty, `performFilter` counts no visible card and shows the
no-results element (`display = 'block'`), where the specification has it
hidden. -/
theorem performFilter_empty_universe_shows_indicator :
    (performFilter (servicePage "" "" "" [])).map (fun p => p.noResults.map (fun s => s.display))
      = Except.ok (some "block") ∧
    (filterAndSettle (servicePage "" "" "" [])).map (fun p => p.noResults.map Style.shown)
      = Except.ok (some true) := by
  decide

/-- With all criteria empty and at least one card, the settled run shows
every card and hides the no-results element. -/
theorem performFilter_inactive_settled (p : ServicePage) (s : Style)
    (hq : p.serviceSearch = some "") (hc : p.categoryFilter = some "")
    (hpr : p.priceFilter = some "") (hnr : p.noResults = some s) (hrest : p.NoPendingHide)
    (hcards : p.cards ≠ []) :
    ∃ p', filterAndSettle p = Except.ok p' ∧
      p'.visibility = p.cards.map (fun _ => true) ∧
      p'.noResults.map Style.shown = some false := by
  have hd := decisions_inactive p.cards
  have hq' : decisions (toLowerCase "") "" "" p.cards =
      Except.ok (p.cards.map (fun _ => true)) := by rw [toLowerCase_empty]; exact hd
  have hcount : (p.cards.map (fun _ => true)).count true ≠ 0 := by
    cases hcs : p.cards with
    | nil => exact absurd hcs hcards
    | cons c cs => simp
  refine ⟨_, performFilter_settled p "" "" "" s _ hq hc hpr hnr hq' hrest, ?_, ?_⟩
  · simp only [ServicePage.visibility]
    exact settledCards_visibility _ 0 p.cards (by simp)
  · simp [settledNoResults, hcards, Style.shown]

/-! ## C5: combined criteria -/

theorem visibilityUnder_eq (p : ServicePage) (q c pr : String) (s : Style)
    (hnr : p.noResults = some s) (hrest : p.NoPendingHide) :
    visibilityUnder p q c pr = decisions (toLowerCase q) c pr p.cards :=
  filterAndSettle_visibility _ q c pr s rfl rfl rfl hnr hrest

theorem visibilityUnder_missing (p : ServicePage) (q c pr : String)
    (hnr : p.noResults = none) : visibilityUnder p q c pr = Except.error JsError.typeError := by
  simp only [visibilityUnder, filterAndSettle, performFilter, performFilterWith, deref, bind, Except.bind,
    forEachCard_eq, hnr]
  cases decisions (toLowerCase q) c pr p.cards with
  | error e => cases e; rfl
  | ok bs => rfl

/-- C5: for every combination of query, category and price bracket, the
cards shown under the combined criteria are exactly the cards shown under
each of the three criteria applied alone (the other two inactive); the
combined run raises exactly when one of the three single runs raises. The
conjunction is that of `&&`, which does not depend on the order of the checks. -/
theorem performFilter_combined_is_intersection (p : ServicePage) (q c pr : String)
    (hrest : p.NoPendingHide) :
    visibilityUnder p q c pr = (do
      let byQuery ← visibilityUnder p q "" ""
      let byCategory ← visibilityUnder p "" c ""
      let byPrice ← visibilityUnder p "" "" pr
      pure (List.zipWith (fun x y => x && y)
        (List.zipWith (fun x y => x && y) byQuery byCategory) byPrice)) := by
  cases hnr : p.noResults with
  | none =>
    simp [visibilityUnder_missing p _ _ _ hnr, bind, Except.bind]
  | some s =>
    simp only [visibilityUnder_eq p _ _ _ s hnr hrest, toLowerCase_empty]
    exact decisions_and (toLowerCase q) c pr p.cards

/-- C5 at the worked example, with the query `a`, the category `Spa` and the
bracket `50-100`. -/
theorem performFilter_combined_is_intersection_witness :
    visibilityUnder (servicePage "" "" "" exampleCards) "a" "Spa" "50-100" = (do
      let byQuery ← visibilityUnder (servicePage "" "" "" exampleCards) "a" "" ""
      let byCategory ← visibilityUnder (servicePage "" "" "" exampleCards) "" "Spa" ""
      let byPrice ← visibilityUnder (servicePage "" "" "" exampleCards) "" "" "50-100"
      pure (List.zipWith (fun x y => x && y)
        (List.zipWith (fun x y => x && y) byQuery byCategory) byPrice)) :=
  performFilter_combined_is_intersection _ "a" "Spa" "50-100"
    (by decide)

/-! ## C6: the category -/

/-- C6: with the query and price filters inactive, for every selected
(non-empty) category, `performFilter` runs without error and the cards shown
are exactly the cards whose category attribute equals the selected category
(string equality: exact and case-sensitive; a card without the attribute is
hidden). -/
theorem performFilter_category_visible (p : ServicePage) (c : String) (s : Style)
    (hq : p.serviceSearch = some "") (hc : p.categoryFilter = some c) (hne : c ≠ "")
    (hpr : p.priceFilter = some "") (hnr : p.noResults = some s) (hrest : p.NoPendingHide) :
    (filterAndSettle p).map ServicePage.visibility =
      Except.ok (p.cards.map (fun card => decide (card.category = some c))) := by
  rw [filterAndSettle_visibility p "" c "" s hq hc hpr hnr hrest, toLowerCase_empty]
  apply decisions_of_forall
  intro card _
  rw [showCard_category]
  simp [hne]

/-- C6 at the worked example: the category `Spa` shows the second card only. -/
theorem performFilter_category_visible_witness :
    (filterAndSettle (servicePage "" "Spa" "" exampleCards)).map ServicePage.visibility =
      Except.ok [false, true] :=
  performFilter_category_visible _ "Spa" plainStyle rfl rfl (by decide) rfl rfl
    (by decide)

/-! ## C7: missing page elements -/

/-- C7, the failing inputs: without the `searchProvider` box `filterProviders`
raises a `TypeError` (the box is read before the guard clause), and
`performFilter` raises when the search box, the category selector, the price
selector or the no-results element is missing. -/
theorem filters_raise_on_missing_element :
    filterProviders { providerPage "" exampleProviders with searchProvider := none }
      = Except.error JsError.typeError ∧
    performFilter { servicePage "" "" "" exampleCards with serviceSearch := none }
      = Except.error JsError.typeError ∧
    performFilter { servicePage "" "" "" exampleCards with categoryFilter := none }
      = Except.error JsError.typeError ∧
    performFilter { servicePage "" "" "" exampleCards with priceFilter := none }
      = Except.error JsError.typeError ∧
    performFilter { servicePage "" "" "" exampleCards with noResults := none }
      = Except.error JsError.typeError := by
  decide

/-- The guard clause of `filterProviders`: with the search box present and
the no-results element missing, the page is returned unchanged. -/
theorem filterProviders_guard (p : ProviderPage) (q : String)
    (hq : p.searchProvider = some q) (hnr : p.noResults = none) :
    filterProviders p = Except.ok p := by
  simp [filterProviders, filterProvidersWith, hq, hnr, deref, bind, Except.bind, pure, Except.pure]

/-! ## C8: the provider filter and its indicator -/

theorem forEachProvider_eq (sq : String) : ∀ (cards : List ProviderCard) (n : Nat),
    forEachProvider sq cards n =
      (cards.map (fun card => { card with style := { card.style with
          display := if providerMatches sq card then "" else "none" } }),
        n + cards.countP (providerMatches sq)) := by
  intro cards
  induction cards with
  | nil => intro n; rfl
  | cons card rest ih =>
    intro n
    by_cases h : providerMatches sq card
    · simp only [forEachProvider, h, ↓reduceIte, ih, List.map_cons, List.countP_cons_of_pos]
      congr 1; omega
    · simp only [forEachProvider, h, Bool.false_eq_true, ↓reduceIte, ih, List.map_cons,
        not_false_eq_true, List.countP_cons_of_neg]

/-- The page `filterProvidersWith` returns, for every lower-casing. -/
theorem filterProvidersWith_eq (lower : String → String) (p : ProviderPage) (q : String) (s : Style)
    (hq : p.searchProvider = some q) (hnr : p.noResults = some s) :
    filterProvidersWith lower p = Except.ok { p with
      cards := p.cards.map (fun card => { card with style := { card.style with
          display := if providerMatches (lower q) card then "" else "none" } }),
      noResults := some { s with display :=
        if (List.countP (providerMatches (lower q)) p.cards = 0 ∧ lower q ≠ "")
        then "block" else "none" } } := by
  simp only [filterProvidersWith, hq, hnr, deref, bind, Except.bind, forEachProvider_eq,
    Nat.zero_add]
  split_ifs <;> rfl

theorem filterProviders_eq (p : ProviderPage) (q : String) (s : Style)
    (hq : p.searchProvider = some q) (hnr : p.noResults = some s) :
    filterProviders p = Except.ok { p with
      cards := p.cards.map (fun card => { card with style := { card.style with
          display := if providerMatches (toLowerCase q) card then "" else "none" } }),
      noResults := some { s with display :=
        if (List.countP (providerMatches (toLowerCase q)) p.cards = 0 ∧ toLowerCase q ≠ "")
        then "block" else "none" } } :=
  filterProvidersWith_eq toLowerCase p q s hq hnr

/-- With an empty query `filterProviders` shows every card and hides the
no-results element, whatever the cards (none included). -/
theorem filterProviders_empty_query (p : ProviderPage) (s : Style)
    (hq : p.searchProvider = some "") (hnr : p.noResults = some s) :
    ∃ p', filterProviders p = Except.ok p' ∧
      p'.cards.map (fun card => card.style.shown) = p.cards.map (fun _ => true) ∧
      p'.noResults.map Style.shown = some false := by
  refine ⟨_, filterProviders_eq p "" s hq hnr, ?_, ?_⟩
  · simp only [toLowerCase_empty, providerMatches, decide_True, Bool.true_or, ↓reduceIte,
      List.map_map]
    apply List.map_congr_left
    intro card _
    rfl
  · simp [toLowerCase_empty, Style.shown]

/-- C8: `filterProviders` (search box and no-results element present) runs
without error; its match count `visibleCount` equals the number of cards left
visible; the no-results element is shown iff that count is 0 and the
lower-cased query is non-empty; with an empty query it is hidden whatever the
cards. -/
theorem filterProviders_count_and_indicator (p : ProviderPage) (q : String) (s : Style)
    (hq : p.searchProvider = some q) (hnr : p.noResults = some s) :
    ∃ p', filterProviders p = Except.ok p' ∧
      (forEachProvider (toLowerCase q) p.cards 0).2 =
        (p'.cards.filter (fun card => card.style.shown)).length ∧
      p'.noResults.map Style.shown = some (decide
        ((forEachProvider (toLowerCase q) p.cards 0).2 = 0 ∧ toLowerCase q ≠ "")) ∧
      (q = "" → p'.noResults.map Style.shown = some false) := by
  refine ⟨_, filterProviders_eq p q s hq hnr, ?_, ?_, ?_⟩
  · simp only [forEachProvider_eq, Nat.zero_add, List.filter_map, List.length_map]
    rw [List.countP_eq_length_filter]
    congr 1
    apply List.filter_congr
    intro card _
    by_cases h : providerMatches (toLowerCase q) card <;> simp [h, Style.shown]
  · simp only [forEachProvider_eq, Nat.zero_add, Option.map_some', Option.some.injEq,
      Style.shown]
    split_ifs with h
    · rw [decide_eq_true h]; decide
    · rw [decide_eq_false h]; decide
  · intro hq0
    simp [hq0, toLowerCase_empty, Style.shown]

/-- C8 at a concrete page: the query `zzz` matches no provider. -/
theorem filterProviders_count_and_indicator_witness :
    ∃ p', filterProviders (providerPage "zzz" exampleProviders) = Except.ok p' ∧
      (forEachProvider (toLowerCase "zzz") (providerPage "zzz" exampleProviders).cards 0).2 =
        (p'.cards.filter (fun card => card.style.shown)).length ∧
      p'.noResults.map Style.shown = some (decide
        ((forEachProvider (toLowerCase "zzz") (providerPage "zzz" exampleProviders).cards 0).2 = 0
          ∧ toLowerCase "zzz" ≠ "")) ∧
      ("zzz" = "" → p'.noResults.map Style.shown = some false) :=
  filterProviders_count_and_indicator _ "zzz" plainStyle rfl rfl

/-! ## C9: the debounce -/

theorem clearTimeout_pendingRuns (p : ServicePage) (h : p.RunsTracked) :
    (p.timers.clearTimeout p.searchTimeout).pending.filter
      (fun t => decide (t.action = TimerAction.performFilter)) = [] := by
  rw [List.filter_eq_nil_iff]
  intro t ht
  cases hst : p.searchTimeout with
  | none =>
    rw [hst] at ht
    simp only [TimerQueue.clearTimeout] at ht
    intro hact
    have := h t ht (by simpa using hact)
    rw [hst] at this
    cases this
  | some id =>
    rw [hst] at ht
    simp only [TimerQueue.clearTimeout, List.mem_filter, bne_iff_ne, ne_eq] at ht
    intro hact
    have := h t ht.1 (by simpa using hact)
    rw [hst] at this
    exact ht.2 (Option.some.inj this).symm

theorem filterServices_step (p : ServicePage) (h : p.RunsTracked) :
    pendingRuns (filterServices p) =
      [{ id := p.timers.nextId, delay := 300, action := TimerAction.performFilter }] ∧
    (filterServices p).searchTimeout = some p.timers.nextId ∧
    (filterServices p).timers.nextId = p.timers.nextId + 1 ∧
    (filterServices p).RunsTracked := by
  have hclear := clearTimeout_pendingRuns p h
  have hnext : (p.timers.clearTimeout p.searchTimeout).nextId = p.timers.nextId := by
    cases p.searchTimeout <;> rfl
  have hruns : pendingRuns (filterServices p) =
      [{ id := p.timers.nextId, delay := 300, action := TimerAction.performFilter }] := by
    simp only [pendingRuns, filterServices, TimerQueue.setTimeout, List.filter_append, hclear,
      hnext, List.nil_append]
    rfl
  refine ⟨hruns, ?_, ?_, ?_⟩
  · simp only [filterServices, TimerQueue.setTimeout, hnext]
  · simp only [filterServices, TimerQueue.setTimeout, hnext]
  · intro t ht hact
    have hmem : t ∈ pendingRuns (filterServices p) := by
      simp only [pendingRuns, List.mem_filter, decide_eq_true_eq]
      exact ⟨ht, hact⟩
    rw [hruns, List.mem_singleton] at hmem
    simp only [filterServices, TimerQueue.setTimeout, hnext, hmem]

theorem filterServices_iterate (p : ServicePage) (h : p.RunsTracked) : ∀ n : Nat,
    pendingRuns (filterServices^[n + 1] p) =
      [{ id := p.timers.nextId + n, delay := 300, action := TimerAction.performFilter }] ∧
    (filterServices^[n + 1] p).searchTimeout = some (p.timers.nextId + n) ∧
    (filterServices^[n + 1] p).timers.nextId = p.timers.nextId + n + 1 ∧
    (filterServices^[n + 1] p).RunsTracked := by
  intro n
  induction n with
  | zero => simpa using filterServices_step p h
  | succ n ih =>
    obtain ⟨_, _, hnext, htracked⟩ := ih
    have hstep := filterServices_step _ htracked
    rw [Function.iterate_succ_apply']
    rw [hnext] at hstep
    exact hstep

/-- A run of `performFilter` that returns found the three inputs and the
no-results element, and no card raised. -/
theorem performFilter_ok_inv (p p' : ServicePage) (h : performFilter p = Except.ok p') :
    ∃ q c pr s bs, p.serviceSearch = some q ∧ p.categoryFilter = some c ∧
      p.priceFilter = some pr ∧ p.noResults = some s ∧
      decisions (toLowerCase q) c pr p.cards = Except.ok bs := by
  cases hq : p.serviceSearch with
  | none => simp [performFilter, performFilterWith, hq, deref, bind, Except.bind] at h
  | some q =>
    cases hc : p.categoryFilter with
    | none => simp [performFilter, performFilterWith, hq, hc, deref, bind, Except.bind] at h
    | some c =>
      cases hpr : p.priceFilter with
      | none => simp [performFilter, performFilterWith, hq, hc, hpr, deref, bind, Except.bind] at h
      | some pr =>
        cases hd : decisions (toLowerCase q) c pr p.cards with
        | error e =>
          simp [performFilter, performFilterWith, hq, hc, hpr, deref, bind, Except.bind, forEachCard_eq, hd] at h
        | ok bs =>
          cases hnr : p.noResults with
          | none =>
            simp [performFilter, performFilterWith, hq, hc, hpr, hnr, deref, bind, Except.bind, forEachCard_eq,
              hd] at h
          | some s => exact ⟨q, c, pr, s, bs, rfl, rfl, rfl, rfl, hd⟩

theorem noResultsTimers_isHide (n id : Nat) : ∀ t ∈ noResultsTimers n id, t.isHide = true := by
  intro t ht
  unfold noResultsTimers at ht
  split at ht
  · simp at ht
  · simp only [List.mem_singleton] at ht
    rw [ht]; rfl

/-- `performFilter` schedules hide timers only: the pending recomputations
and `searchTimeout` are as before. -/
theorem performFilter_pendingRuns (p p' : ServicePage) (h : performFilter p = Except.ok p') :
    pendingRuns p' = pendingRuns p ∧ p'.searchTimeout = p.searchTimeout := by
  obtain ⟨q, c, pr, s, bs, hq, hc, hpr, hnr, hd⟩ := performFilter_ok_inv p p' h
  rw [performFilter_eq p q c pr s bs hq hc hpr hnr hd] at h
  have h' := Except.ok.inj h
  subst h'
  refine ⟨?_, rfl⟩
  simp only [pendingRuns, List.filter_append]
  have h1 : (loopTimers bs 0 p.timers.nextId).filter
      (fun t => decide (t.action = TimerAction.performFilter)) = [] := by
    rw [List.filter_eq_nil_iff]
    intro t ht hact
    have := loopTimers_isHide _ _ _ t ht
    simp only [Timer.isHide, bne_iff_ne, ne_eq] at this
    exact this (by simpa using hact)
  have h2 : (noResultsTimers (bs.count true) (p.timers.nextId + bs.count false)).filter
      (fun t => decide (t.action = TimerAction.performFilter)) = [] := by
    rw [List.filter_eq_nil_iff]
    intro t ht hact
    have := noResultsTimers_isHide _ _ t ht
    simp only [Timer.isHide, bne_iff_ne, ne_eq] at this
    exact this (by simpa using hact)
  rw [h1, h2]
  simp

theorem fireTimer_pendingRuns (p p' : ServicePage) (t : Timer)
    (h : fireTimer t p = Except.ok p') :
    (∀ u ∈ pendingRuns p', u ∈ pendingRuns p) ∧
    (pendingRuns p').length ≤ (pendingRuns p).length ∧
    p'.searchTimeout = p.searchTimeout := by
  have herase : ∀ u ∈ (p.timers.pending.erase t).filter
      (fun t => decide (t.action = TimerAction.performFilter)), u ∈ pendingRuns p := by
    intro u hu
    simp only [List.mem_filter] at hu
    simp only [pendingRuns, List.mem_filter]
    exact ⟨List.mem_of_mem_erase hu.1, hu.2⟩
  have hlen : ((p.timers.pending.erase t).filter
      (fun t => decide (t.action = TimerAction.performFilter))).length
      ≤ (pendingRuns p).length := by
    apply List.Sublist.length_le
    exact List.Sublist.filter _ (List.erase_sublist t p.timers.pending)
  unfold fireTimer at h
  cases hact : t.action with
  | performFilter =>
    simp only [hact] at h
    obtain ⟨h1, h2⟩ := performFilter_pendingRuns _ p' h
    refine ⟨?_, ?_, h2⟩
    · intro u hu
      rw [h1] at hu
      exact herase u hu
    · rw [h1]; exact hlen
  | hideCard index =>
    simp only [hact, pure, Except.pure, Except.ok.injEq] at h
    subst h
    exact ⟨herase, hlen, rfl⟩
  | hideNoResults =>
    simp only [hact, pure, Except.pure, Except.ok.injEq] at h
    subst h
    exact ⟨herase, hlen, rfl⟩

/-- On every reachable page at most one recomputation is pending, and it is
the one `searchTimeout` refers to. -/
theorem Reachable.pendingRuns_le_one {p : ServicePage} (h : Reachable p) :
    p.RunsTracked ∧ (pendingRuns p).length ≤ 1 := by
  induction h with
  | load p hp hs =>
    constructor
    · intro t ht; rw [hp] at ht; simp at ht
    · simp [pendingRuns, hp]
  | call p _ ih =>
    obtain ⟨h1, _, _, h4⟩ := filterServices_step p ih.1
    exact ⟨h4, by simp [h1]⟩
  | fire p p' t _ ht hfire ih =>
    obtain ⟨hsub, hlen, hst⟩ := fireTimer_pendingRuns p p' t hfire
    constructor
    · intro u hu hact
      have hmem : u ∈ pendingRuns p' := by
        simp only [pendingRuns, List.mem_filter, decide_eq_true_eq]
        exact ⟨hu, hact⟩
      have := hsub u hmem
      simp only [pendingRuns, List.mem_filter, decide_eq_true_eq] at this
      rw [hst]
      exact ih.1 u this.1 this.2
    · omega

/-- C9: the debounce is last-write-wins. On every page the scripts can bring
about (a loaded page, then calls of `filterServices` and firings of timers in
any order), at most one recomputation is pending; and after `n + 1` further
calls of `filterServices` with no timer firing in between, exactly one is
pending: the one the last call scheduled (the id that call was handed, delay
300), to which `searchTimeout` refers. Every recomputation scheduled earlier
has been cancelled. -/
theorem filterServices_last_write_wins (p : ServicePage) (h : Reachable p) (n : Nat) :
    pendingRuns (filterServices^[n + 1] p) =
      [{ id := p.timers.nextId + n, delay := 300, action := TimerAction.performFilter }] ∧
    (filterServices^[n + 1] p).searchTimeout = some (p.timers.nextId + n) ∧
    (pendingRuns p).length ≤ 1 :=
  ⟨(filterServices_iterate p h.pendingRuns_le_one.1 n).1,
   (filterServices_iterate p h.pendingRuns_le_one.1 n).2.1,
   h.pendingRuns_le_one.2⟩

/-- C9 on a freshly loaded page: three calls of `filterServices`. -/
theorem filterServices_last_write_wins_witness :
    pendingRuns (filterServices^[2 + 1] (servicePage "cut" "" "" exampleCards)) =
      [{ id := (servicePage "cut" "" "" exampleCards).timers.nextId + 2, delay := 300,
         action := TimerAction.performFilter }] ∧
    (filterServices^[2 + 1] (servicePage "cut" "" "" exampleCards)).searchTimeout =
      some ((servicePage "cut" "" "" exampleCards).timers.nextId + 2) ∧
    (pendingRuns (servicePage "cut" "" "" exampleCards)).length ≤ 1 :=
  filterServices_last_write_wins _ (Reachable.load _ rfl rfl) 2

/-! ## C10: parsing the price text -/

/-- C10, refuted as stated: for `min = 2^53 + 1` and `max = 2^53 + 2` the
text `$9007199254740993-9007199254740994` parses to the Numbers
`(9007199254740992, 9007199254740994)`: a Number is a double, and
`2^53 + 1` is not one. -/
theorem parsePrice_large_counterexample :
    priceText 9007199254740993 9007199254740994 = "$9007199254740993-9007199254740994" ∧
    parsePrice (priceText 9007199254740993 9007199254740994) =
      (JsNumber.int 9007199254740992, JsNumber.int 9007199254740994) := by
  decide

theorem toNumber_exact (n : Nat) (h : n ≤ 2 ^ 53) : toNumber n = JsNumber.int n := by
  rcases Nat.lt_or_eq_of_le h with h | h
  · rcases roundToDouble_cases n with ⟨_, e⟩ | ⟨h2, _⟩
    · simp [toNumber, e]
    · omega
  · rw [h]; decide

/-- C10, amended: for all natural numbers `min` and `max` up to `2^53` (the
range in which every integer is a Number), the price parsing of
`performFilter` applied to the text `$<min>-<max>` yields exactly the pair
`(min, max)`. -/
theorem parsePrice_priceText (min max : Nat) (hmin : min ≤ 2 ^ 53) (hmax : max ≤ 2 ^ 53) :
    parsePrice (priceText min max) = (JsNumber.int min, JsNumber.int max) := by
  simp only [parsePrice, priceParts_priceText, List.getElem?_cons_zero,
    List.getElem?_cons_succ, parseInt_toDigits, toNumber_exact min hmin,
    toNumber_exact max hmax]

/-- The amended C10 at the price text `$30-60`. -/
theorem parsePrice_priceText_witness :
    parsePrice (priceText 30 60) = (JsNumber.int (30 : Nat), JsNumber.int (60 : Nat)) :=
  parsePrice_priceText 30 60 (by decide) (by decide)

/-- Beyond `2^53` each bound is the double nearest to it. -/
theorem parsePrice_rounds (min max : Nat) :
    parsePrice (priceText min max) = (toNumber min, toNumber max) := by
  simp only [parsePrice, priceParts_priceText, List.getElem?_cons_zero,
    List.getElem?_cons_succ, parseInt_toDigits]

/-! ## The hide timers on the cards and on the indicator -/

theorem runHide_cards (p : ServicePage) (a : TimerAction) :
    (runHide p a).cards = hideCards p.cards a := by
  cases a <;> rfl

theorem runHide_noResults (p : ServicePage) (a : TimerAction) :
    (runHide p a).noResults = hideIndicator p.noResults a := by
  cases a <;> rfl

theorem foldl_runHide_cards (ts : List Timer) : ∀ p : ServicePage,
    (ts.foldl (fun p t => runHide p t.action) p).cards =
      ts.foldl (fun cards t => hideCards cards t.action) p.cards := by
  induction ts with
  | nil => intro p; rfl
  | cons t ts ih => intro p; simp only [List.foldl_cons, ih, runHide_cards]

theorem foldl_runHide_noResults (ts : List Timer) : ∀ p : ServicePage,
    (ts.foldl (fun p t => runHide p t.action) p).noResults =
      ts.foldl (fun s t => hideIndicator s t.action) p.noResults := by
  induction ts with
  | nil => intro p; rfl
  | cons t ts ih => intro p; simp only [List.foldl_cons, ih, runHide_noResults]

theorem foldl_runHide_inputs (ts : List Timer) : ∀ p : ServicePage,
    (ts.foldl (fun p t => runHide p t.action) p).serviceSearch = p.serviceSearch ∧
    (ts.foldl (fun p t => runHide p t.action) p).categoryFilter = p.categoryFilter ∧
    (ts.foldl (fun p t => runHide p t.action) p).priceFilter = p.priceFilter := by
  induction ts with
  | nil => intro p; exact ⟨rfl, rfl, rfl⟩
  | cons t ts ih =>
    intro p
    simp only [List.foldl_cons]
    obtain ⟨h1, h2, h3⟩ := ih (runHide p t.action)
    rw [h1, h2, h3]
    cases t.action <;> exact ⟨rfl, rfl, rfl⟩

theorem fireHideTimers_cards (p : ServicePage) :
    (fireHideTimers p).cards =
      (p.timers.pending.filter Timer.isHide).foldl
        (fun cards t => hideCards cards t.action) p.cards := by
  simp only [fireHideTimers, foldl_runHide_cards]

theorem fireHideTimers_noResults (p : ServicePage) :
    (fireHideTimers p).noResults =
      (p.timers.pending.filter Timer.isHide).foldl
        (fun s t => hideIndicator s t.action) p.noResults := by
  simp only [fireHideTimers, foldl_runHide_noResults]

theorem fireHideTimers_inputs (p : ServicePage) :
    (fireHideTimers p).serviceSearch = p.serviceSearch ∧
    (fireHideTimers p).categoryFilter = p.categoryFilter ∧
    (fireHideTimers p).priceFilter = p.priceFilter := by
  simp only [fireHideTimers]
  exact foldl_runHide_inputs _ p

/-! ## C11: the item universe -/

theorem map_modify_of_eq {α β : Type} (f : α → α) (g : α → β) (hfg : ∀ x, g (f x) = g x) :
    ∀ (l : List α) (i : Nat), (l.modify f i).map g = l.map g := by
  intro l
  induction l with
  | nil => intro i; simp
  | cons a l ih =>
    intro i
    cases i with
    | zero => simp [hfg]
    | succ i => simp [ih i]

theorem hideCards_attributes (cards : List ServiceCard) (a : TimerAction) :
    (hideCards cards a).map ServiceCard.attributes = cards.map ServiceCard.attributes := by
  cases a with
  | hideCard index =>
    simp only [hideCards]
    apply map_modify_of_eq
    intro card
    rfl
  | performFilter => rfl
  | hideNoResults => rfl

theorem foldl_hideCards_attributes (ts : List Timer) : ∀ cards : List ServiceCard,
    (ts.foldl (fun cards t => hideCards cards t.action) cards).map ServiceCard.attributes =
      cards.map ServiceCard.attributes := by
  induction ts with
  | nil => intro cards; rfl
  | cons t ts ih => intro cards; simp only [List.foldl_cons, ih, hideCards_attributes]

theorem loopCards_attributes : ∀ (bs : List Bool) (index : Nat) (cards : List ServiceCard),
    bs.length = cards.length →
    (loopCards bs index cards).map ServiceCard.attributes = cards.map ServiceCard.attributes := by
  intro bs
  induction bs with
  | nil =>
    intro index cards h
    have : cards = [] := by simpa using h.symm
    subst this; rfl
  | cons b bs ih =>
    intro index cards h
    cases cards with
    | nil => simp at h
    | cons card rest =>
      have h' : bs.length = rest.length := by simpa using h
      simp only [loopCards, List.map_cons, ih (index + 1) rest h']
      cases b <;> rfl

theorem performFilter_attributes (p p' : ServicePage) (h : performFilter p = Except.ok p') :
    p'.cards.map ServiceCard.attributes = p.cards.map ServiceCard.attributes := by
  obtain ⟨q, c, pr, s, bs, hq, hc, hpr, hnr, hd⟩ := performFilter_ok_inv p p' h
  rw [performFilter_eq p q c pr s bs hq hc hpr hnr hd] at h
  have h' := Except.ok.inj h
  subst h'
  exact loopCards_attributes bs 0 p.cards (decisions_length _ _ _ _ _ hd)

theorem filterProviders_ok_inv (p p' : ProviderPage) (h : filterProviders p = Except.ok p') :
    ∃ q, p.searchProvider = some q ∧
      (p.noResults = none ∧ p' = p ∨
       ∃ s, p.noResults = some s ∧ p' = { p with
        cards := p.cards.map (fun card => { card with style := { card.style with
            display := if providerMatches (toLowerCase q) card then "" else "none" } }),
        noResults := some { s with display :=
          if (List.countP (providerMatches (toLowerCase q)) p.cards = 0 ∧ toLowerCase q ≠ "")
          then "block" else "none" } }) := by
  rcases Option.eq_none_or_eq_some p.searchProvider with hq | ⟨q, hq⟩
  · simp [filterProviders, filterProvidersWith, hq, deref, bind, Except.bind] at h
  · refine ⟨q, hq, ?_⟩
    rcases Option.eq_none_or_eq_some p.noResults with hnr | ⟨s, hnr⟩
    · left
      rw [filterProviders_guard p q hq hnr] at h
      exact ⟨hnr, (Except.ok.inj h).symm⟩
    · right
      rw [filterProviders_eq p q s hq hnr] at h
      exact ⟨s, hnr, (Except.ok.inj h).symm⟩

/-- C11: the filters do not change the item universe. A run of
`performFilter` that returns, the hide timers it leaves pending once fired,
and a run of `filterProviders` that returns leave the list of cards with the
same length and order and with every name, category, price, tag and services
attribute as before; of a card they write the style (display and animation)
only. -/
theorem filters_keep_item_universe (p p' : ServicePage) (pp pp' : ProviderPage)
    (hs : performFilter p = Except.ok p') (hp : filterProviders pp = Except.ok pp') :
    p'.cards.map ServiceCard.attributes = p.cards.map ServiceCard.attributes ∧
    (fireHideTimers p').cards.map ServiceCard.attributes =
      p.cards.map ServiceCard.attributes ∧
    pp'.cards.map ProviderCard.attributes = pp.cards.map ProviderCard.attributes := by
  refine ⟨performFilter_attributes p p' hs, ?_, ?_⟩
  · rw [fireHideTimers_cards, foldl_hideCards_attributes, performFilter_attributes p p' hs]
  · obtain ⟨q, _, h | ⟨s, _, h⟩⟩ := filterProviders_ok_inv pp pp' hp
    · rw [h.2]
    · rw [h]
      simp only [List.map_map]
      apply List.map_congr_left
      intro card _
      rfl

/-- C11 at the worked example: the query `cut` on the two services, the
query `mass` on the two providers. -/
theorem filters_keep_item_universe_witness :
    (okOr (performFilter (servicePage "cut" "" "" exampleCards))
        (servicePage "cut" "" "" exampleCards)).cards.map ServiceCard.attributes =
      (servicePage "cut" "" "" exampleCards).cards.map ServiceCard.attributes ∧
    (fireHideTimers (okOr (performFilter (servicePage "cut" "" "" exampleCards))
        (servicePage "cut" "" "" exampleCards))).cards.map ServiceCard.attributes =
      (servicePage "cut" "" "" exampleCards).cards.map ServiceCard.attributes ∧
    (okOr (filterProviders (providerPage "mass" exampleProviders))
        (providerPage "mass" exampleProviders)).cards.map ProviderCard.attributes =
      (providerPage "mass" exampleProviders).cards.map ProviderCard.attributes :=
  filters_keep_item_universe _ _ _ _ (by decide) (by decide)

/-! ## C12: idempotence -/

theorem showCard_congr (s c pr : String) (card card' : ServiceCard)
    (h : card.attributes = card'.attributes) :
    showCard s c pr card = showCard s c pr card' := by
  simp only [ServiceCard.attributes, Prod.mk.injEq] at h
  obtain ⟨h1, h2, h3, _⟩ := h
  simp only [showCard, h1, h2, h3]

theorem decisions_congr (s c pr : String) : ∀ (cards cards' : List ServiceCard),
    cards.map ServiceCard.attributes = cards'.map ServiceCard.attributes →
    decisions s c pr cards = decisions s c pr cards' := by
  intro cards
  induction cards with
  | nil =>
    intro cards' h
    cases cards' with
    | nil => rfl
    | cons _ _ => simp at h
  | cons card rest ih =>
    intro cards' h
    cases cards' with
    | nil => simp at h
    | cons card' rest' =>
      simp only [List.map_cons, List.cons.injEq] at h
      simp only [decisions, showCard_congr s c pr card card' h.1, ih rest' h.2]

/-- The show/hide state after a settled run, from the criteria, the item
attributes and the presence of the no-results element alone. -/
theorem filterAndSettle_shownState (p : ServicePage) (hrest : p.NoPendingHide) :
    (filterAndSettle p).map ServicePage.shownState =
      match p.serviceSearch, p.categoryFilter, p.priceFilter with
      | some q, some c, some pr =>
        match decisions (toLowerCase q) c pr p.cards with
        | Except.error e => Except.error e
        | Except.ok bs =>
          if p.noResults.isSome then Except.ok (bs, some (decide (bs.count true = 0)))
          else Except.error JsError.typeError
      | _, _, _ => Except.error JsError.typeError := by
  rcases Option.eq_none_or_eq_some p.serviceSearch with hq | ⟨q, hq⟩
  · simp [filterAndSettle, performFilter, performFilterWith, hq, deref, bind, Except.bind, Except.map]
  rcases Option.eq_none_or_eq_some p.categoryFilter with hc | ⟨c, hc⟩
  · simp [filterAndSettle, performFilter, performFilterWith, hq, hc, deref, bind, Except.bind, Except.map]
  rcases Option.eq_none_or_eq_some p.priceFilter with hpr | ⟨pr, hpr⟩
  · simp [filterAndSettle, performFilter, performFilterWith, hq, hc, hpr, deref, bind, Except.bind, Except.map]
  simp only [hq, hc, hpr]
  cases hd : decisions (toLowerCase q) c pr p.cards with
  | error e =>
    simp [filterAndSettle, performFilter, performFilterWith, hq, hc, hpr, deref, bind, Except.bind,
      forEachCard_eq, hd, Except.map]
  | ok bs =>
    rcases Option.eq_none_or_eq_some p.noResults with hnr | ⟨s, hnr⟩
    · simp [filterAndSettle, performFilter, performFilterWith, hq, hc, hpr, hnr, deref, bind, Except.bind,
        forEachCard_eq, hd, Except.map]
    · rw [performFilter_settled p q c pr s bs hq hc hpr hnr hd hrest]
      simp only [Except.map, ServicePage.shownState, ServicePage.visibility, hnr,
        Option.isSome_some, ↓reduceIte, Except.ok.injEq, Prod.mk.injEq, Option.map_some',
        Option.some.injEq]
      refine ⟨settledCards_visibility bs 0 p.cards (decisions_length _ _ _ _ _ hd), ?_⟩
      by_cases hz : bs.count true = 0 <;> simp [settledNoResults, hz, Style.shown]

theorem filterAndSettle_shownState_congr (p r : ServicePage) (hp : p.NoPendingHide)
    (hr : r.NoPendingHide) (hsame : p.SameItems r) :
    (filterAndSettle r).map ServicePage.shownState =
      (filterAndSettle p).map ServicePage.shownState := by
  obtain ⟨h1, h2, h3, h4, h5⟩ := hsame
  rw [filterAndSettle_shownState p hp, filterAndSettle_shownState r hr, ← h1, ← h2, ← h3, ← h5]
  rcases p.serviceSearch with _ | q <;> rcases p.categoryFilter with _ | c <;>
    rcases p.priceFilter with _ | pr <;> try rfl
  simp only [decisions_congr (toLowerCase q) c pr r.cards p.cards h4.symm]

theorem settledCards_attributes : ∀ (bs : List Bool) (index : Nat) (cards : List ServiceCard),
    bs.length = cards.length →
    (settledCards bs index cards).map ServiceCard.attributes =
      cards.map ServiceCard.attributes := by
  intro bs
  induction bs with
  | nil =>
    intro index cards h
    have : cards = [] := by simpa using h.symm
    subst this; rfl
  | cons b bs ih =>
    intro index cards h
    cases cards with
    | nil => simp at h
    | cons card rest =>
      have h' : bs.length = rest.length := by simpa using h
      simp only [settledCards, List.map_cons, ih (index + 1) rest h']
      cases b <;> rfl

/-- A settled run leaves a page at rest with the criteria and item attributes
it started from. -/
theorem filterAndSettle_sameItems (p p' : ServicePage) (hrest : p.NoPendingHide)
    (h : filterAndSettle p = Except.ok p') : p'.NoPendingHide ∧ p.SameItems p' := by
  obtain ⟨p1, hp1, _⟩ := map_eq_ok (f := fireHideTimers) (x := performFilter p)
    (y := p') (by simpa [filterAndSettle] using h)
  obtain ⟨q, c, pr, s, bs, hq, hc, hpr, hnr, hd⟩ := performFilter_ok_inv p p1 hp1
  rw [performFilter_settled p q c pr s bs hq hc hpr hnr hd hrest] at h
  have h' := Except.ok.inj h
  subst h'
  refine ⟨hrest, rfl, rfl, rfl, ?_, ?_⟩
  · exact (settledCards_attributes bs 0 p.cards (decisions_length _ _ _ _ _ hd)).symm
  · simp [hnr]

theorem providerMatches_congr (q : String) (card card' : ProviderCard)
    (h : card.attributes = card'.attributes) :
    providerMatches q card = providerMatches q card' := by
  simp only [ProviderCard.attributes, Prod.mk.injEq] at h
  simp only [providerMatches, h.1, h.2]

theorem map_providerMatches_congr (q : String) : ∀ (cards cards' : List ProviderCard),
    cards.map ProviderCard.attributes = cards'.map ProviderCard.attributes →
    cards.map (providerMatches q) = cards'.map (providerMatches q) := by
  intro cards
  induction cards with
  | nil =>
    intro cards' h
    cases cards' with
    | nil => rfl
    | cons _ _ => simp at h
  | cons card rest ih =>
    intro cards' h
    cases cards' with
    | nil => simp at h
    | cons card' rest' =>
      simp only [List.map_cons, List.cons.injEq] at h
      simp only [List.map_cons, providerMatches_congr q card card' h.1, ih rest' h.2]

/-- The show/hide state after `filterProviders`, from the query and the item
attributes alone. -/
theorem filterProviders_shownState (p : ProviderPage) (q : String) (s : Style)
    (hq : p.searchProvider = some q) (hnr : p.noResults = some s) :
    (filterProviders p).map ProviderPage.shownState =
      Except.ok (p.cards.map (providerMatches (toLowerCase q)),
        some (decide ((p.cards.map (providerMatches (toLowerCase q))).count true = 0 ∧
          toLowerCase q ≠ ""))) := by
  rw [filterProviders_eq p q s hq hnr]
  simp only [Except.map, ProviderPage.shownState, Except.ok.injEq, Prod.mk.injEq,
    List.map_map, Option.map_some', Option.some.injEq]
  constructor
  · apply List.map_congr_left
    intro card _
    by_cases h : providerMatches (toLowerCase q) card <;> simp [h, Style.shown]
  · have hcount : (p.cards.map (providerMatches (toLowerCase q))).count true =
        List.countP (providerMatches (toLowerCase q)) p.cards := by
      rw [List.count, List.countP_map]
      congr 1
      funext card
      simp
    rw [hcount]
    simp only [Style.shown]
    split_ifs with h
    · rw [decide_eq_true h]; decide
    · rw [decide_eq_false h]; decide

theorem filterProviders_again (p p' : ProviderPage) (h : filterProviders p = Except.ok p') :
    filterProviders p' = Except.ok p' := by
  obtain ⟨q, hq, ⟨hnr, hp'⟩ | ⟨s, hnr, hp'⟩⟩ := filterProviders_ok_inv p p' h
  · rw [hp']; exact filterProviders_guard p q hq hnr
  · have hcards : p'.cards.map ProviderCard.attributes = p.cards.map ProviderCard.attributes := by
      rw [hp']
      simp only [List.map_map]
      apply List.map_congr_left
      intro card _
      rfl
    have hm := map_providerMatches_congr (toLowerCase q) p'.cards p.cards hcards
    have hq' : p'.searchProvider = some q := by rw [hp']; exact hq
    have hcount : List.countP (providerMatches (toLowerCase q)) p'.cards =
        List.countP (providerMatches (toLowerCase q)) p.cards := by
      have e : ∀ l : List ProviderCard, List.countP (providerMatches (toLowerCase q)) l =
          (l.map (providerMatches (toLowerCase q))).count true := by
        intro l
        rw [List.count, List.countP_map]
        congr 1
        funext card
        simp
      rw [e, e, hm]
    rw [filterProviders_eq p' q _ hq' (by rw [hp'])]
    rw [hcount]
    conv_rhs => rw [hp']
    simp only [hp', List.map_map, Except.ok.injEq, ProviderPage.mk.injEq, true_and,
      Option.some.injEq, and_true]
    apply List.map_congr_left
    intro card _
    have : providerMatches (toLowerCase q) { card with style := { card.style with
        display := if providerMatches (toLowerCase q) card then "" else "none" } } =
        providerMatches (toLowerCase q) card := rfl
    simp only [Function.comp, this]

/-- C12: idempotence on the page state. For `performFilter` with its hide
timers fired, started on a page with no hide timer of an earlier run pending:
a second run on the resulting page returns and leaves the show/hide state of
every card and of the no-results element as the first run left it, and a run
on any page at rest with the same criteria and item attributes (whatever the
styles of its cards) ends in that same state. For `filterProviders`: a second
run returns the page of the first run unchanged, and a run on any page with
the same query and item attributes (the no-results element present) ends in
the same show/hide state. -/
theorem filters_idempotent (p p' : ServicePage) (pp pp' : ProviderPage)
    (hrest : p.NoPendingHide) (hs : filterAndSettle p = Except.ok p')
    (hp : filterProviders pp = Except.ok pp') :
    (filterAndSettle p').map ServicePage.shownState = Except.ok p'.shownState ∧
    filterProviders pp' = Except.ok pp' ∧
    (∀ r : ServicePage, r.NoPendingHide → p.SameItems r →
      (filterAndSettle r).map ServicePage.shownState = Except.ok p'.shownState) ∧
    (∀ rr : ProviderPage, pp.SameItems rr →
      (filterProviders rr).map ProviderPage.shownState = Except.ok pp'.shownState) := by
  have hfirst : (filterAndSettle p).map ServicePage.shownState = Except.ok p'.shownState := by
    rw [hs]; rfl
  obtain ⟨hrest', hsame'⟩ := filterAndSettle_sameItems p p' hrest hs
  refine ⟨?_, filterProviders_again pp pp' hp, ?_, ?_⟩
  · rw [filterAndSettle_shownState_congr p p' hrest hrest' hsame', hfirst]
  · intro r hr hsame
    rw [filterAndSettle_shownState_congr p r hrest hr hsame, hfirst]
  · intro rr hpsame
    obtain ⟨h1, h2, h3, h4⟩ := hpsame
    obtain ⟨s, hs1⟩ := Option.isSome_iff_exists.1 h3
    obtain ⟨s', hs2⟩ := Option.isSome_iff_exists.1 h4
    rcases Option.eq_none_or_eq_some pp.searchProvider with hq | ⟨q, hq⟩
    · simp [filterProviders, filterProvidersWith, hq, deref, bind, Except.bind] at hp
    · have hfirstp : (filterProviders pp).map ProviderPage.shownState =
          Except.ok pp'.shownState := by rw [hp]; rfl
      rw [filterProviders_shownState pp q s hq hs1] at hfirstp
      rw [filterProviders_shownState rr q s' (by rw [← h1]; exact hq) hs2, ← hfirstp,
        map_providerMatches_congr (toLowerCase q) rr.cards pp.cards h2.symm]

/-- C12 at the worked example: the query `cut` on the two services and the
query `mass` on the two providers. -/
theorem filters_idempotent_witness :
    (filterAndSettle (okOr (filterAndSettle (servicePage "cut" "" "" exampleCards))
        (servicePage "cut" "" "" exampleCards))).map ServicePage.shownState =
      Except.ok (okOr (filterAndSettle (servicePage "cut" "" "" exampleCards))
        (servicePage "cut" "" "" exampleCards)).shownState ∧
    filterProviders (okOr (filterProviders (providerPage "mass" exampleProviders))
        (providerPage "mass" exampleProviders)) =
      Except.ok (okOr (filterProviders (providerPage "mass" exampleProviders))
        (providerPage "mass" exampleProviders)) ∧
    (∀ r : ServicePage, r.NoPendingHide →
      (servicePage "cut" "" "" exampleCards).SameItems r →
      (filterAndSettle r).map ServicePage.shownState =
        Except.ok (okOr (filterAndSettle (servicePage "cut" "" "" exampleCards))
          (servicePage "cut" "" "" exampleCards)).shownState) ∧
    (∀ rr : ProviderPage, (providerPage "mass" exampleProviders).SameItems rr →
      (filterProviders rr).map ProviderPage.shownState =
        Except.ok (okOr (filterProviders (providerPage "mass" exampleProviders))
          (providerPage "mass" exampleProviders)).shownState) :=
  filters_idempotent (servicePage "cut" "" "" exampleCards) _
    (providerPage "mass" exampleProviders) _ (by decide) (by decide) (by decide)

/-- The worked example run on pages whose cards all start hidden ends in the
same show/hide state as on the pages as first rendered. -/
theorem filters_idempotent_example :
    (filterAndSettle (servicePage "cut" "" "" (exampleCards.map hiddenCard))).map
        ServicePage.shownState =
      (filterAndSettle (servicePage "cut" "" "" exampleCards)).map ServicePage.shownState ∧
    (filterAndSettle (servicePage "cut" "" "" exampleCards)).map ServicePage.shownState =
      Except.ok ([true, false], some false) := by
  decide

/-! ## C13: matching in the provider filter -/

/-- C13: in `filterProviders` (search box and no-results element present), for
every query and every set of provider cards whose name and services
attributes are lower-case text (a missing attribute counting as the empty
text), the run returns and a card is left visible iff the lower-cased query
is empty or occurs as a substring in the name or in the services text of the
card; so a card is visible iff the lower-cased query is empty or the query is
contained, ignoring case, in its name or in its services text. The
lower-casing is any function, `String.prototype.toLowerCase` with its Unicode
case table among them. -/
theorem filterProviders_matching (lower : String → String) (p : ProviderPage)
    (q : String) (s : Style)
    (hq : p.searchProvider = some q) (hnr : p.noResults = some s)
    (hlow : ∀ card ∈ p.cards,
      lower (card.name.getD "") = card.name.getD "" ∧
      lower (card.services.getD "") = card.services.getD "") :
    ∃ p', filterProvidersWith lower p = Except.ok p' ∧
      (∀ (i : Nat) (card : ProviderCard), p.cards[i]? = some card →
        ((p'.cards[i]?.map (fun c => c.style.shown) = some true) ↔
          (lower q = "" ∨
           (lower q).data <:+: (card.name.getD "").data ∨
           (lower q).data <:+: (card.services.getD "").data))) ∧
      p'.cards.map (fun c => c.style.shown) =
        p.cards.map (fun card => decide (lower q = "") ||
          containsIgnoreCaseBy lower (card.name.getD "") q ||
          containsIgnoreCaseBy lower (card.services.getD "") q) := by
  refine ⟨_, filterProvidersWith_eq lower p q s hq hnr, ?_, ?_⟩
  · intro i card hi
    simp only [List.getElem?_map, hi, Option.map_some', Option.some.injEq, Style.shown]
    rw [← includes_iff, ← includes_iff]
    by_cases h : providerMatches (lower q) card
    · simp only [h, ↓reduceIte]
      simp only [providerMatches, Bool.or_eq_true, decide_eq_true_eq] at h
      constructor
      · intro _
        tauto
      · intro _
        decide
    · simp only [h, Bool.false_eq_true, ↓reduceIte]
      simp only [providerMatches, Bool.or_eq_true, decide_eq_true_eq] at h
      constructor
      · intro hne
        exact absurd hne (by decide)
      · intro hor
        exact absurd (by tauto) h
  · simp only [List.map_map]
    apply List.map_congr_left
    intro card hcard
    obtain ⟨h1, h2⟩ := hlow card hcard
    simp only [Function.comp, containsIgnoreCaseBy, h1, h2, Style.shown]
    by_cases h : providerMatches (lower q) card
    · simp only [h, ↓reduceIte]
      simp only [providerMatches] at h
      rw [h]; decide
    · simp only [h, Bool.false_eq_true, ↓reduceIte]
      simp only [providerMatches] at h
      rw [Bool.not_eq_true] at h
      rw [h]; decide

/-- C13 at a concrete page, with a lower-casing that knows `É`: the query
`CAFÉ` on two providers, the first named `café`. -/
theorem filterProviders_matching_witness :
    ∃ p', filterProvidersWith lowerLatin (providerPage "CAFÉ" cafeProviders) =
        Except.ok p' ∧
      (∀ (i : Nat) (card : ProviderCard),
        (providerPage "CAFÉ" cafeProviders).cards[i]? = some card →
        ((p'.cards[i]?.map (fun c => c.style.shown) = some true) ↔
          (lowerLatin "CAFÉ" = "" ∨
           (lowerLatin "CAFÉ").data <:+: (card.name.getD "").data ∨
           (lowerLatin "CAFÉ").data <:+: (card.services.getD "").data))) ∧
      p'.cards.map (fun c => c.style.shown) =
        (providerPage "CAFÉ" cafeProviders).cards.map
          (fun card => decide (lowerLatin "CAFÉ" = "") ||
            containsIgnoreCaseBy lowerLatin (card.name.getD "") "CAFÉ" ||
            containsIgnoreCaseBy lowerLatin (card.services.getD "") "CAFÉ") :=
  filterProviders_matching lowerLatin (providerPage "CAFÉ" cafeProviders) "CAFÉ"
    plainStyle rfl rfl (by decide)

/-- The query `MASS` on the two providers shows the second card only. -/
theorem filterProviders_matching_example :
    (filterProviders (providerPage "MASS" exampleProviders)).map ProviderPage.shownState =
      Except.ok ([false, true], some false) := by
  decide

/-- A query outside ASCII: with a lower-casing that knows `É`, the query
`CAFÉ` shows the provider named `café` only and the no-results element stays
hidden. -/
theorem filterProviders_unicode_example :
    (filterProvidersWith lowerLatin (providerPage "CAFÉ" cafeProviders)).map
      ProviderPage.shownState = Except.ok ([true, false], some false) := by
  decide

/-! ## C14: `formatTime` -/

theorem IsDecimal.ne_colon {c : Char} (h : IsDecimal c) : c ≠ ':' := by
  obtain ⟨k, hk, rfl⟩ := h
  interval_cases k <;> decide

theorem splitChar_ne_nil (sep : Char) (s : List Char) : splitChar sep s ≠ [] := by
  cases s with
  | nil => simp [splitChar]
  | cons c s =>
    simp only [splitChar]
    split_ifs
    · simp
    · split <;> simp

theorem splitChar_head (sep : Char) : ∀ s : List Char,
    (splitChar sep s)[0]? = some (s.takeWhile (fun c => c != sep)) := by
  intro s
  induction s with
  | nil => rfl
  | cons c s ih =>
    by_cases hc : c = sep
    · simp [splitChar, hc]
    · simp only [splitChar, hc, ↓reduceIte]
      cases hs : splitChar sep s with
      | nil => exact absurd hs (splitChar_ne_nil sep s)
      | cons w ws =>
        rw [hs] at ih
        simp only [List.getElem?_cons_zero, Option.some.injEq] at ih
        simp [List.takeWhile_cons, hc, ih]

theorem splitChar_append (sep : Char) (l s : List Char) (hl : sep ∉ l) :
    splitChar sep (l ++ sep :: s) = l :: splitChar sep s := by
  induction l with
  | nil => simp [splitChar]
  | cons d l ih =>
    have hd : d ≠ sep := fun e => hl (by simp [e])
    have hl' : sep ∉ l := fun e => hl (by simp [e])
    simp [splitChar, hd, ih hl']

/-- The result of `formatTime` on any run of decimal digits of value at most
23 (zero-padded or not), a colon and any text. -/
theorem formatTime_digits (hs : List Char) (m : String) (hne : hs ≠ [])
    (hdec : ∀ c ∈ hs, IsDecimal c) (hval : digitsValue 10 hs ≤ 23) :
    formatTime (String.mk (hs ++ ':' :: m.data)) =
      toString (if digitsValue 10 hs % 12 = 0 then 12 else digitsValue 10 hs % 12) ++ ":" ++
        String.mk (m.data.takeWhile (fun c => c != ':')) ++ " " ++
        (if 12 ≤ digitsValue 10 hs then "PM" else "AM") := by
  have hcolon : ':' ∉ hs := fun h => (hdec _ h).ne_colon rfl
  have hparse : parseInt (some hs) = JsNumber.int (digitsValue 10 hs) := by
    simp only [parseInt, Option.getD_some]
    rw [parseIntChars_decimal hs hne hdec]
    exact toNumber_exact _ (by omega)
  generalize digitsValue 10 hs = h at hval hparse
  have hmod : (JsNumber.int (h : Nat)).mod (JsNumber.int 12) = JsNumber.int ((h % 12 : Nat) : Int) := by
    simp only [JsNumber.mod]
    rw [if_neg (by decide)]
    congr 1
  have hge : (JsNumber.int (h : Nat)).ge (JsNumber.int 12) = decide (12 ≤ h) := by
    simp only [JsNumber.ge, JsNumber.lt]
    by_cases h12 : 12 ≤ h
    · have : ¬ ((h : Int) < 12) := by omega
      simp [h12, this]
    · have : ((h : Int) < 12) := by omega
      simp [h12, this]
  simp only [formatTime, splitChar_append ':' hs m.data hcolon, List.getElem?_cons_zero,
    List.getElem?_cons_succ, splitChar_head, hparse, hmod, hge, textOrUndefined]
  have hcast : ∀ n : Nat, toString ((n : Nat) : Int) = toString n := fun _ => rfl
  by_cases h0 : h % 12 = 0
  · have ht : (JsNumber.int ((h % 12 : Nat) : Int)).truthy = false := by rw [h0]; rfl
    simp only [ht, h0, Bool.false_eq_true, ↓reduceIte, JsNumber.toText, decide_eq_true_eq]
    rfl
  · have ht : (JsNumber.int ((h % 12 : Nat) : Int)).truthy = true := by
      simp only [JsNumber.truthy, bne_iff_ne, ne_eq]
      exact_mod_cast h0
    simp only [ht, h0, ↓reduceIte, JsNumber.toText, decide_eq_true_eq, hcast]

/-- The result of `formatTime` on a zero-padded hour: `09:30` gives `9:30 AM`. -/
theorem formatTime_padded_example : formatTime "09:30" = "9:30 AM" := by decide

/-- C14, refuted as stated: for the hour 13 and the minutes text `05:30` (a
time with seconds), `formatTime("13:05:30")` is `1:05 PM`, not `1:05:30 PM`:
the destructuring keeps the first two pieces of the split only. -/
theorem formatTime_seconds_counterexample :
    formatTime (toString 13 ++ ":" ++ "05:30") = "1:05 PM" ∧
    formatTime (toString 13 ++ ":" ++ "05:30") ≠
      toString (displayHourOf 13) ++ ":" ++ "05:30" ++ " " ++ meridiem 13 := by
  decide

/-- C14, amended: for every hour `h` with `0 <= h <= 23` and every minutes
text `m`, `formatTime("<h>:<m>")` is `"<d>:<m'> <s>"` where `m'` is `m` up to
its first colon (`m` itself when it has no colon), `d` is 12 if `h mod 12 = 0`
and `h mod 12` otherwise, and `s` is `PM` iff `h >= 12`; `d` is always between
1 and 12, 0 maps to 12 AM and 12 maps to 12 PM. -/
theorem formatTime_twelve_hour (h : Nat) (m : String) (hh : h ≤ 23) :
    formatTime (toString h ++ ":" ++ m) =
      toString (displayHourOf h) ++ ":" ++ upToColon m ++ " " ++ meridiem h ∧
    1 ≤ displayHourOf h ∧ displayHourOf h ≤ 12 ∧
    (displayHourOf 0, meridiem 0) = (12, "AM") ∧
    (displayHourOf 12, meridiem 12) = (12, "PM") := by
  obtain ⟨hne, hdec, hval⟩ := toDigits_decimal h
  have hdata : toString h ++ ":" ++ m = String.mk (Nat.toDigits 10 h ++ ':' :: m.data) := by
    apply String.ext
    simp [toString, Nat.repr, List.asString]
  refine ⟨?_, ?_, ?_, by decide, by decide⟩
  · rw [hdata, formatTime_digits _ m hne hdec (by rw [hval]; exact hh), hval]
    rfl
  · unfold displayHourOf; split_ifs <;> omega
  · unfold displayHourOf; split_ifs <;> omega

/-- The amended C14 at `13:05:30`. -/
theorem formatTime_twelve_hour_witness :
    formatTime (toString 13 ++ ":" ++ "05:30") =
      toString (displayHourOf 13) ++ ":" ++ upToColon "05:30" ++ " " ++ meridiem 13 ∧
    1 ≤ displayHourOf 13 ∧ displayHourOf 13 ≤ 12 ∧
    (displayHourOf 0, meridiem 0) = (12, "AM") ∧
    (displayHourOf 12, meridiem 12) = (12, "PM") :=
  formatTime_twelve_hour 13 "05:30" (by decide)

/-- When the minutes text has no colon it is kept whole. -/
theorem upToColon_of_no_colon (m : String) (h : ':' ∉ m.data) : upToColon m = m := by
  apply String.ext
  simp only [upToColon]
  rw [List.takeWhile_eq_self_iff]
  intro c hc
  simp only [bne_iff_ne, ne_eq]
  intro e
  exact h (e ▸ hc)

/-! ## C15: the star row -/

theorem remOne_of_nonneg (x : ℚ) (h : 0 ≤ x) : remOne x = Int.fract x := by
  unfold remOne
  rw [if_pos h]
  rfl

theorem starRow_default :
    starsHTML (9 / 2) =
      [StarIcon.full, StarIcon.full, StarIcon.full, StarIcon.full, StarIcon.half] := by
  have hfloor : ⌊(9 / 2 : ℚ)⌋ = 4 := by rw [Int.floor_eq_iff]; norm_num
  have hfull : fullStars (9 / 2) = 4 := hfloor
  have hhalf : halfStar (9 / 2) = 1 := by
    simp only [halfStar, remOne, hfloor]
    norm_num
  have hempty : emptyStars (9 / 2) = 0 := by
    simp only [emptyStars, hfull, hhalf]; rfl
  simp only [starsHTML, hfull, hhalf, hempty]
  rfl

/-- C15, refuted as stated: for the rating `0` the star row has four full
stars and a half star, not `floor(0) = 0` full stars and five empty ones:
`provider.rating || 4.5` takes a rating of `0` for a missing one. -/
theorem starRow_zero_counterexample :
    starRow (Provider.object (some 0)) =
      [StarIcon.full, StarIcon.full, StarIcon.full, StarIcon.full, StarIcon.half] ∧
    (starRow (Provider.object (some 0))).count StarIcon.full ≠ (⌊(0 : ℚ)⌋).toNat := by
  have h : starRow (Provider.object (some 0)) =
      [StarIcon.full, StarIcon.full, StarIcon.full, StarIcon.full, StarIcon.half] := by
    simp only [starRow, rating, ↓reduceIte]
    exact starRow_default
  refine ⟨h, ?_⟩
  rw [h]
  simp

/-- C15, amended: for every rating `r` (an exact rational) with `0 < r <= 5`,
the star row has `floor(r)` full stars, then one half star iff the fractional
part of `r` is at least 1/2, then `emptyStars` empty stars where `emptyStars`
is not negative, and exactly 5 icons in all. A rating of `0`, like a missing
one, is shown as 4.5. -/
theorem starRow_five_icons (r : ℚ) (h0 : 0 < r) (h5 : r ≤ 5) :
    starRow (Provider.object (some r)) =
      List.replicate (⌊r⌋).toNat StarIcon.full ++
        (if Int.fract r ≥ 1 / 2 then [StarIcon.half] else []) ++
        List.replicate (emptyStars r).toNat StarIcon.empty ∧
    0 ≤ emptyStars r ∧
    (starRow (Provider.object (some r))).length = 5 ∧
    starRow (Provider.object (some 0)) = starRow (Provider.object none) := by
  have hne : r ≠ 0 := ne_of_gt h0
  have hrem : remOne r = Int.fract r := remOne_of_nonneg r (le_of_lt h0)
  have hf0 : 0 ≤ ⌊r⌋ := Int.floor_nonneg.2 (le_of_lt h0)
  have hf5 : ⌊r⌋ ≤ 5 := by
    have : (⌊r⌋ : ℚ) ≤ 5 := le_trans (Int.floor_le r) h5
    exact_mod_cast this
  have hhalf : 1 / 2 ≤ Int.fract r → ⌊r⌋ ≤ 4 := by
    intro hfr
    have h1 : (⌊r⌋ : ℚ) + Int.fract r = r := Int.floor_add_fract r
    have h2 : (⌊r⌋ : ℚ) ≤ 9 / 2 := by linarith
    have h3 : (⌊r⌋ : ℚ) < 5 := by linarith
    have h4 : ⌊r⌋ < 5 := by exact_mod_cast h3
    omega
  have hrow : starRow (Provider.object (some r)) = starsHTML r := by
    simp [starRow, rating, hne]
  have hempty : 0 ≤ emptyStars r := by
    simp only [emptyStars, fullStars, halfStar, hrem]
    split_ifs with hfr
    · have := hhalf hfr; omega
    · omega
  refine ⟨?_, hempty, ?_, ?_⟩
  · rw [hrow]
    simp only [starsHTML, fullStars, halfStar, hrem]
    by_cases hfr : 1 / 2 ≤ Int.fract r <;> simp [hfr]
  · rw [hrow]
    simp only [starsHTML, List.length_append, List.length_replicate]
    have hlen : (if halfStar r ≠ 0 then [StarIcon.half] else []).length = (halfStar r).toNat := by
      simp only [halfStar]
      split_ifs <;> simp_all
    rw [hlen]
    have he := hempty
    simp only [emptyStars, fullStars] at he ⊢
    have hh : 0 ≤ halfStar r := by
      simp only [halfStar]; split_ifs <;> omega
    omega
  · simp [starRow, rating]

/-- The amended C15 at the rating 7/2: three full stars, a half star, an
empty star. -/
theorem starRow_five_icons_witness :
    starRow (Provider.object (some (7 / 2))) =
      List.replicate (⌊(7 / 2 : ℚ)⌋).toNat StarIcon.full ++
        (if Int.fract (7 / 2 : ℚ) ≥ 1 / 2 then [StarIcon.half] else []) ++
        List.replicate (emptyStars (7 / 2)).toNat StarIcon.empty ∧
    0 ≤ emptyStars (7 / 2) ∧
    (starRow (Provider.object (some (7 / 2)))).length = 5 ∧
    starRow (Provider.object (some 0)) = starRow (Provider.object none) :=
  starRow_five_icons (7 / 2) (by norm_num) (by norm_num)

/-! ## C16: `clearFilters` and the filter it bypasses -/

theorem forEachShow_eq_loopCards : ∀ (cards : List ServiceCard) (index : Nat),
    forEachShow index cards = loopCards (cards.map (fun _ => true)) index cards := by
  intro cards
  induction cards with
  | nil => intro index; rfl
  | cons card rest ih =>
    intro index
    simp only [forEachShow, List.map_cons, loopCards, ↓reduceIte, ih (index + 1), shownCard]

theorem loopTimers_all_true : ∀ (n index id : Nat),
    loopTimers (List.replicate n true) index id = [] := by
  intro n
  induction n with
  | zero => intro index id; rfl
  | succ n ih => intro index id; simp only [List.replicate_succ, loopTimers, ih]

theorem foldl_hideIndicator_some (ts : List Timer) : ∀ st : Style,
    ∃ st', ts.foldl (fun s t => hideIndicator s t.action) (some st) = some st' ∧
      (st.display = "none" → st'.display = "none") := by
  induction ts with
  | nil => intro st; exact ⟨st, rfl, id⟩
  | cons t ts ih =>
    intro st
    simp only [List.foldl_cons]
    cases hact : t.action with
    | hideNoResults =>
      obtain ⟨st', h1, h2⟩ := ih { st with display := "none" }
      exact ⟨st', by simpa [hideIndicator] using h1, fun _ => h2 rfl⟩
    | performFilter => simpa [hideIndicator] using ih st
    | hideCard index => simpa [hideIndicator] using ih st

theorem clearFilters_eq (p : ServicePage) (q c pr : String) (s : Style)
    (hq : p.serviceSearch = some q) (hc : p.categoryFilter = some c)
    (hpr : p.priceFilter = some pr) (hnr : p.noResults = some s) :
    clearFilters p = Except.ok { p with
      serviceSearch := some "", categoryFilter := some "", priceFilter := some "",
      cards := forEachShow 0 p.cards,
      noResults := some { s with display := "none" } } := by
  simp [clearFilters, hq, hc, hpr, hnr, deref, bind, Except.bind, pure, Except.pure]

theorem setInputsEmpty_eq (p : ServicePage) (q c pr : String)
    (hq : p.serviceSearch = some q) (hc : p.categoryFilter = some c)
    (hpr : p.priceFilter = some pr) :
    setInputsEmpty p = Except.ok { p with
      serviceSearch := some "", categoryFilter := some "", priceFilter := some "" } := by
  simp [setInputsEmpty, hq, hc, hpr, deref, bind, Except.bind, pure, Except.pure]

/-- C16: `clearFilters` agrees with the filter it bypasses. For every
non-empty set of service cards, `clearFilters` on the one hand, and setting
the three inputs to empty and running `performFilter` on the other, raise
together or return together; and once the pending hide timers have fired the
two pages have the same criteria (all empty), the same cards (every one with
`display = ''` unless a hide timer of an earlier run was pending for it) and
the same `display` of the no-results element (`none`). -/
theorem clearFilters_agrees_with_performFilter (p : ServicePage) (hcards : p.cards ≠ []) :
    (clearFilters p).map (fun a => (fireHideTimers a).outcome) =
      (setInputsEmpty p >>= performFilter).map (fun b => (fireHideTimers b).outcome) := by
  rcases Option.eq_none_or_eq_some p.serviceSearch with hq | ⟨q, hq⟩
  · simp [clearFilters, setInputsEmpty, hq, deref, bind, Except.bind, Except.map]
  rcases Option.eq_none_or_eq_some p.categoryFilter with hc | ⟨c, hc⟩
  · simp [clearFilters, setInputsEmpty, hq, hc, deref, bind, Except.bind, Except.map]
  rcases Option.eq_none_or_eq_some p.priceFilter with hpr | ⟨pr, hpr⟩
  · simp [clearFilters, setInputsEmpty, hq, hc, hpr, deref, bind, Except.bind, Except.map]
  have hd : decisions (toLowerCase "") "" "" p.cards =
      Except.ok (p.cards.map (fun _ => true)) := by
    rw [toLowerCase_empty]; exact decisions_inactive p.cards
  rw [setInputsEmpty_eq p q c pr hq hc hpr]
  rcases Option.eq_none_or_eq_some p.noResults with hnr | ⟨s, hnr⟩
  · simp [clearFilters, performFilter, performFilterWith, hq, hc, hpr, hnr, deref, bind, Except.bind,
      Except.map, forEachCard_eq, hd]
  rw [clearFilters_eq p q c pr s hq hc hpr hnr]
  simp only [bind, Except.bind]
  have key := performFilter_eq
    (ServicePage.mk (some "") (some "") (some "") p.cards p.noResults p.timers p.searchTimeout)
    "" "" "" s _ rfl rfl rfl hnr hd
  rw [key]
  have hcount : (p.cards.map (fun _ => true)).count true ≠ 0 := by
    cases hcs : p.cards with
    | nil => exact absurd hcs hcards
    | cons card rest => simp
  have hmap : p.cards.map (fun _ => true) = List.replicate p.cards.length true := by
    simp
  simp only [Except.map, Except.ok.injEq, ServicePage.outcome, Prod.mk.injEq]
  obtain ⟨a1, a2, a3⟩ := fireHideTimers_inputs { p with
      serviceSearch := some "", categoryFilter := some "", priceFilter := some "",
      cards := forEachShow 0 p.cards,
      noResults := some { s with display := "none" } }
  obtain ⟨b1, b2, b3⟩ := fireHideTimers_inputs { p with
      serviceSearch := some "", categoryFilter := some "", priceFilter := some "",
      cards := loopCards (p.cards.map (fun _ => true)) 0 p.cards,
      noResults := some (loopNoResults s ((p.cards.map (fun _ => true)).count true)),
      timers := { pending := p.timers.pending ++
                    (loopTimers (p.cards.map (fun _ => true)) 0 p.timers.nextId ++
                      noResultsTimers ((p.cards.map (fun _ => true)).count true)
                        (p.timers.nextId + (p.cards.map (fun _ => true)).count false)),
                  nextId := p.timers.nextId + (p.cards.map (fun _ => true)).count false +
                    (if (p.cards.map (fun _ => true)).count true = 0 then 0 else 1) } }
  refine ⟨by rw [a1, b1], by rw [a2, b2], by rw [a3, b3], ?_, ?_⟩
  · simp only [fireHideTimers_cards, forEachShow_eq_loopCards, List.filter_append]
    rw [hmap, loopTimers_all_true]
    simp only [noResultsTimers]
    rw [if_neg (by rw [← hmap]; exact hcount)]
    simp [Timer.isHide, hideCards]
  · simp only [fireHideTimers_noResults, List.filter_append]
    rw [hmap, loopTimers_all_true]
    simp only [noResultsTimers, loopNoResults]
    rw [if_neg (by rw [← hmap]; exact hcount), if_neg (by rw [← hmap]; exact hcount)]
    obtain ⟨st1, h1, h1'⟩ := foldl_hideIndicator_some (p.timers.pending.filter Timer.isHide)
      { s with display := "none" }
    obtain ⟨st2, h2, _⟩ := foldl_hideIndicator_some (p.timers.pending.filter Timer.isHide)
      { s with animation := Animation.text "fadeOut 0.3s ease both" }
    simp only [List.filter_nil, List.nil_append, List.foldl_append, h1, h2]
    simp [Timer.isHide, hideIndicator, h1' rfl]

/-- C16 at the worked example, from a page on which a query had hidden the
second card. -/
theorem clearFilters_agrees_with_performFilter_witness :
    (clearFilters (servicePage "cut" "" "" (exampleCards.map hiddenCard))).map
        (fun a => (fireHideTimers a).outcome) =
      (setInputsEmpty (servicePage "cut" "" "" (exampleCards.map hiddenCard)) >>=
        performFilter).map (fun b => (fireHideTimers b).outcome) :=
  clearFilters_agrees_with_performFilter _ (by decide)

/-- On the empty set of cards the two differ: `clearFilters` hides the
no-results element, `performFilter` shows it. -/
theorem clearFilters_empty_universe :
    (clearFilters (servicePage "" "" "" [])).map (fun a => (fireHideTimers a).outcome) ≠
      (setInputsEmpty (servicePage "" "" "" []) >>= performFilter).map
        (fun b => (fireHideTimers b).outcome) := by
  decide

/-! ## C17: `addLoadingState` -/

/-- C17 as stated fails: a button whose `innerHTML` reads `<pre>`, newline,
`x`, `</pre>` reads `<pre>x</pre>` after `addLoadingState` and the function it
returns, since the parser drops the newline after the start tag. -/
theorem addLoadingState_reparse_counterexample :
    ((addLoadingState reparsePre preButton).2
      (addLoadingState reparsePre preButton).1).innerHTML = "<pre>x</pre>" ∧
    ((addLoadingState reparsePre preButton).2
      (addLoadingState reparsePre preButton).1).innerHTML ≠ preButton.innerHTML := by
  decide

/-- C17, amended: for every button whose `innerHTML` is text that the browser
parses and serialises back unchanged, calling `addLoadingState` and then the
function it returns restores `innerHTML` and `className` to their values
before the call and leaves the button enabled; between the two calls the
button is disabled and its `className` is the original with ` loading`
appended. The returned function restores the two values whatever was written
to the button in between. -/
theorem addLoadingState_round_trip (reparse : String → String) (button : Button)
    (hfix : reparse button.innerHTML = button.innerHTML) :
    ((addLoadingState reparse button).2 (addLoadingState reparse button).1).innerHTML =
      button.innerHTML ∧
    ((addLoadingState reparse button).2 (addLoadingState reparse button).1).className =
      button.className ∧
    ((addLoadingState reparse button).2 (addLoadingState reparse button).1).disabled = false ∧
    (addLoadingState reparse button).1.disabled = true ∧
    (addLoadingState reparse button).1.className = button.className ++ " loading" ∧
    (∀ between : Button,
      (addLoadingState reparse button).2 between = { button with disabled := false }) := by
  refine ⟨hfix, rfl, rfl, rfl, rfl, fun _ => ?_⟩
  simp only [addLoadingState, hfix]

/-- The amended C17 at a concrete button, whose text `Book` has no markup. -/
theorem addLoadingState_round_trip_witness :
    reparsePre exampleButton.innerHTML = exampleButton.innerHTML ∧
    ((addLoadingState reparsePre exampleButton).2
      (addLoadingState reparsePre exampleButton).1).innerHTML = "Book" ∧
    ((addLoadingState reparsePre exampleButton).2
      (addLoadingState reparsePre exampleButton).1).className = "btn btn-primary" ∧
    (addLoadingState reparsePre exampleButton).1.className = "btn btn-primary loading" :=
  have h := addLoadingState_round_trip reparsePre exampleButton (by decide)
  ⟨by decide, h.1, h.2.1, h.2.2.2.2.1⟩

/-- Whatever the browser makes of the text, `className` is restored, the
button is enabled after the round trip and disabled in between, and the
`innerHTML` then read is the original text parsed and serialised again. -/
theorem addLoadingState_attributes (reparse : String → String) (button : Button) :
    ((addLoadingState reparse button).2 (addLoadingState reparse button).1).className =
      button.className ∧
    ((addLoadingState reparse button).2 (addLoadingState reparse button).1).disabled = false ∧
    (addLoadingState reparse button).1.disabled = true ∧
    (addLoadingState reparse button).1.className = button.className ++ " loading" ∧
    ((addLoadingState reparse button).2 (addLoadingState reparse button).1).innerHTML =
      reparse button.innerHTML :=
  ⟨rfl, rfl, rfl, rfl, rfl⟩

/-- The loading state of a concrete button and its removal. -/
theorem addLoadingState_example :
    (addLoadingState reparsePre exampleButton).1.className = "btn btn-primary loading" ∧
    (addLoadingState reparsePre exampleButton).1.disabled = true ∧
    (addLoadingState reparsePre exampleButton).2 (addLoadingState reparsePre exampleButton).1 =
      exampleButton := by
  decide

end SchedulerApp
